import Mathlib

/-!
Verification of the ACME certificate engine in
`src/templates/https-cert/cert-lambda.py` (aws-easy repository).

The Python source is shallowly embedded below.  Pure helpers
(`base64url_encode`, `jwk_thumbprint`, the JWS payload encoding, the PEM
chain splitting of `generate_certificate`, `handle_api_request`) are
translated as executable functions over a small JSON value type `JV`
that mirrors the values `json.loads`/`json.dumps` operate on.  The
network, `json.loads`, `hashlib.sha256`, key (de)serialization and x509
parsing are Python-library primitives; they enter the embedding as
explicit parameters (`Prims`) and step-indexed response environments
(`Env`), so that the control flow of `generate_certificate` — ordering
of requests, the three waiting loops, the single secret write — is
modelled faithfully while library internals stay abstract.
-/

/-! ## JSON values (the results of `json.loads` / inputs of `json.dumps`) -/

/-- A JSON value as produced by Python's `json.loads`. -/
inductive JV where
  | str (s : String)
  | num (n : Int)
  | bool (b : Bool)
  | null
  | arr (items : List JV)
  | obj (fields : List (String × JV))

/-- Code-point lexicographic `<=` on char lists: how Python compares `str`s
(used by `json.dumps(..., sort_keys=True)`). -/
def charsLe : List Char → List Char → Bool
  | [], _ => true
  | _ :: _, [] => false
  | a :: as, b :: bs =>
      if a.toNat < b.toNat then true
      else if b.toNat < a.toNat then false
      else charsLe as bs

/-- Python string `<=` by code points. -/
def keyLe (a b : String) : Bool := charsLe a.data b.data

/-- Hex digit (lowercase), as used by Python's `json` `\uXXXX` escapes. -/
def hexDigit (n : Nat) : Char :=
  if n < 10 then Char.ofNat (48 + n) else Char.ofNat (87 + n)

/-- Four hex digits of a code unit. -/
def hex4 (n : Nat) : List Char :=
  [hexDigit (n / 4096 % 16), hexDigit (n / 256 % 16), hexDigit (n / 16 % 16), hexDigit (n % 16)]

/-- How Python's `json.dumps` (default `ensure_ascii=True`) renders one
character inside a string literal. -/
def escapeChar (c : Char) : List Char :=
  if c.toNat = 34 then ['\\', '"']
  else if c.toNat = 92 then ['\\', '\\']
  else if c.toNat = 10 then ['\\', 'n']
  else if c.toNat = 9 then ['\\', 't']
  else if c.toNat = 13 then ['\\', 'r']
  else if c.toNat = 8 then ['\\', 'b']
  else if c.toNat = 12 then ['\\', 'f']
  else if c.toNat < 32 then '\\' :: 'u' :: hex4 c.toNat
  else if c.toNat < 127 then [c]
  else if c.toNat < 65536 then '\\' :: 'u' :: hex4 c.toNat
  else
    ('\\' :: 'u' :: hex4 (55296 + (c.toNat - 65536) / 1024))
      ++ ('\\' :: 'u' :: hex4 (56320 + (c.toNat - 65536) % 1024))

/-- Characters of the escaped content of a JSON string literal. -/
def escapeChars : List Char → List Char
  | [] => []
  | c :: rest => escapeChar c ++ escapeChars rest

/-- Python `json.dumps` rendering of a string (quotes plus escaping). -/
def pyQuote (s : String) : String :=
  String.mk ('"' :: escapeChars s.data ++ ['"'])

/-- Insert one key/value pair into a key-sorted field list (Python `sorted` order). -/
def insertField (k : String) (v : JV) : List (String × JV) → List (String × JV)
  | [] => [(k, v)]
  | (k2, v2) :: rest =>
      if keyLe k k2 then (k, v) :: (k2, v2) :: rest
      else (k2, v2) :: insertField k v rest

/-- Sort object fields by key, as `json.dumps(..., sort_keys=True)` does. -/
def sortFields (fs : List (String × JV)) : List (String × JV) :=
  fs.foldr (fun kv acc => insertField kv.1 kv.2 acc) []

mutual

/-- Recursively sort every object's fields by key (the effect of
`sort_keys=True` at all nesting levels). -/
def jsort : JV → JV
  | .str s => .str s
  | .num n => .num n
  | .bool b => .bool b
  | .null => .null
  | .arr items => .arr (jsortItems items)
  | .obj fields => .obj (sortFields (jsortFields fields))

def jsortItems : List JV → List JV
  | [] => []
  | x :: xs => jsort x :: jsortItems xs

def jsortFields : List (String × JV) → List (String × JV)
  | [] => []
  | (k, v) :: rest => (k, jsort v) :: jsortFields rest

end

mutual

/-- Python `json.dumps` with given item and key separators
(`separators=(isep, ksep)`), `sort_keys=False`. -/
def dumpVal (isep ksep : String) : JV → String
  | .str s => pyQuote s
  | .num n => toString n
  | .bool b => if b then "true" else "false"
  | .null => "null"
  | .arr items => "[" ++ dumpItems isep ksep items ++ "]"
  | .obj fields => "\x7b" ++ dumpFields isep ksep fields ++ "\x7d"

def dumpItems (isep ksep : String) : List JV → String
  | [] => ""
  | [x] => dumpVal isep ksep x
  | x :: y :: rest => dumpVal isep ksep x ++ isep ++ dumpItems isep ksep (y :: rest)

def dumpFields (isep ksep : String) : List (String × JV) → String
  | [] => ""
  | [(k, v)] => pyQuote k ++ ksep ++ dumpVal isep ksep v
  | (k, v) :: y :: rest => pyQuote k ++ ksep ++ dumpVal isep ksep v ++ isep ++ dumpFields isep ksep (y :: rest)

end

/-- Python `json.dumps(j)` with default separators `(', ', ': ')`. -/
def json_dumps (j : JV) : String := dumpVal ", " ": " j

/-- Python `json.dumps(j, sort_keys=True, separators=(',', ':'))`
(the exact call in `jwk_thumbprint`, line 388). -/
def json_dumps_sorted_compact (j : JV) : String := dumpVal "," ":" (jsort j)

/-- Association lookup in an object's field list (first match, like a
Python `dict` where keys are unique). -/
def lookupField : List (String × JV) → String → Option JV
  | [], _ => none
  | (k, v) :: rest, key => if k = key then some v else lookupField rest key

/-- Python `dict.pop(key, None)`: the field list without that key. -/
def eraseField (key : String) (fs : List (String × JV)) : List (String × JV) :=
  fs.filter (fun kv => kv.1 ≠ key)

/-! ## Bytes, UTF-8 and base64url (`base64url_encode`, lines 361-365) -/

/-- UTF-8 encoding of one character (Python `str.encode()`). -/
def utf8Char (c : Char) : List Nat :=
  let n := c.toNat
  if n < 128 then [n]
  else if n < 2048 then [192 + n / 64, 128 + n % 64]
  else if n < 65536 then [224 + n / 4096, 128 + n / 64 % 64, 128 + n % 64]
  else [240 + n / 262144, 128 + n / 4096 % 64, 128 + n / 64 % 64, 128 + n % 64]

/-- UTF-8 encoding of a string as a byte list (Python `str.encode()`). -/
def utf8Bytes (s : String) : List Nat :=
  go s.data
where
  go : List Char → List Nat
    | [] => []
    | c :: rest => utf8Char c ++ go rest

/-- The base64url alphabet (RFC 4648 §5): `A-Z a-z 0-9 - _`. -/
def b64Char (n : Nat) : Char :=
  if n < 26 then Char.ofNat (65 + n)
  else if n < 52 then Char.ofNat (97 + (n - 26))
  else if n < 62 then Char.ofNat (48 + (n - 52))
  else if n = 62 then '-'
  else '_'

/-- Characters of `base64.urlsafe_b64encode` with the `=` padding already
stripped (the `rstrip(b'=')` of line 365 fused in; `b64PadCount` below
accounts for the stripped padding). -/
def b64Body : List Nat → List Char
  | [] => []
  | [a] => [b64Char (a / 4), b64Char (a % 4 * 16)]
  | [a, b] => [b64Char (a / 4), b64Char (a % 4 * 16 + b / 16), b64Char (b % 16 * 4)]
  | a :: b :: c :: rest =>
      b64Char (a / 4) :: b64Char (a % 4 * 16 + b / 16) :: b64Char (b % 16 * 4 + c / 64)
        :: b64Char (c % 64) :: b64Body rest

/-- Number of `=` padding characters `urlsafe_b64encode` would append. -/
def b64PadCount : List Nat → Nat
  | [] => 0
  | [_] => 2
  | [_, _] => 1
  | _ :: _ :: _ :: rest => b64PadCount rest

/-- Characters of Python `base64.urlsafe_b64encode(data)` (with padding). -/
def b64Padded (bs : List Nat) : List Char :=
  b64Body bs ++ List.replicate (b64PadCount bs) '='

/-- Python `bytes.rstrip(b'=')` on a char list. -/
def rstripEqChars (l : List Char) : List Char :=
  (l.reverse.dropWhile (· = '=')).reverse

/-- `base64url_encode` (lines 361-365): urlsafe base64 without padding. -/
def base64url_encode (data : List Nat) : String :=
  String.mk (rstripEqChars (b64Padded data))

/-- Inverse of `b64Char` on the base64url alphabet. -/
def b64Inv (c : Char) : Nat :=
  if 65 ≤ c.toNat ∧ c.toNat ≤ 90 then c.toNat - 65
  else if 97 ≤ c.toNat ∧ c.toNat ≤ 122 then c.toNat - 97 + 26
  else if 48 ≤ c.toNat ∧ c.toNat ≤ 57 then c.toNat - 48 + 52
  else if c.toNat = 45 then 62
  else 63

/-- Decoder for `b64Body` output, used to prove the encoding injective. -/
def b64BodyDecode : List Char → List Nat
  | [c0, c1] => [b64Inv c0 * 4 + b64Inv c1 / 16]
  | [c0, c1, c2] => [b64Inv c0 * 4 + b64Inv c1 / 16, b64Inv c1 % 16 * 16 + b64Inv c2 / 4]
  | c0 :: c1 :: c2 :: c3 :: rest =>
      (b64Inv c0 * 4 + b64Inv c1 / 16)
        :: (b64Inv c1 % 16 * 16 + b64Inv c2 / 4)
        :: (b64Inv c2 % 4 * 64 + b64Inv c3)
        :: b64BodyDecode rest
  | _ => []

/-- `n.to_bytes(len, 'big')` (Python), defined for `n < 256 ^ len`. -/
def to_bytes_be : Nat → Nat → List Nat
  | 0, _ => []
  | len + 1, n => to_bytes_be len (n / 256) ++ [n % 256]

/-! ## Account keys and the JWK thumbprint (`jwk_thumbprint`, lines 368-389) -/

/-- An EC P-256 account key, modelled by its public numbers: the source
only ever uses `key.public_key().public_numbers()` (coordinates `x`, `y`)
and the opaque signing operation. -/
structure EcKey where
  x : Nat
  y : Nat
deriving DecidableEq

/-- The JWK dictionary built by `jwk_thumbprint` (lines 379-384), in the
source's insertion order. -/
def jwkObj (key : EcKey) : JV :=
  .obj [("crv", .str "P-256"), ("kty", .str "EC"),
        ("x", .str (base64url_encode (to_bytes_be 32 key.x))),
        ("y", .str (base64url_encode (to_bytes_be 32 key.y)))]

/-- `jwk_thumbprint(key)` (lines 368-389): serialize the JWK with
`sort_keys=True, separators=(',', ':')`, hash with SHA-256 (abstracted as
the parameter `sha256`), base64url-encode.  Non-EC keys raise
"Unsupported key type"; `EcKey` models the EC branch. -/
def jwk_thumbprint (sha256 : List Nat → List Nat) (key : EcKey) : String :=
  base64url_encode (sha256 (utf8Bytes (json_dumps_sorted_compact (jwkObj key))))

/-- The serialization the spec describes for the thumbprint input: exactly
the members `{crv, kty, x, y}` in lexicographic key order with no
insignificant whitespace, coordinates as unpadded base64url of their
32-byte big-endian form. -/
def jwkCanonicalJson (key : EcKey) : String :=
  "\x7b\"crv\":\"P-256\",\"kty\":\"EC\",\"x\":\""
    ++ base64url_encode (to_bytes_be 32 key.x)
    ++ "\",\"y\":\"" ++ base64url_encode (to_bytes_be 32 key.y) ++ "\"\x7d"

/-! ## The JWS payload field (`acme_request`, lines 430-435) -/

/-- The `payload` member of the flattened JWS built by `acme_request`
(lines 432-435): empty string for a POST-as-GET (`payload is None`),
otherwise `base64url_encode(json.dumps(payload))` — note `json.dumps`
with its default separators `(', ', ': ')`. -/
def payload_b64 (payload : Option JV) : String :=
  match payload with
  | none => ""
  | some p => base64url_encode (utf8Bytes (json_dumps p))

/-- The encoding the spec describes instead: base64url of the *compact*
JSON encoding (separators `(',', ':')`) of the body. -/
def specCompactPayloadB64 (payload : Option JV) : String :=
  match payload with
  | none => ""
  | some p => base64url_encode (utf8Bytes (dumpVal "," ":" p))

/-! ## Errors raised by the engine

`cert-lambda.py` signals every failure by raising; the embedding uses an
explicit error type.  Constructors record the `raise` sites of the source
(or the built-in exception Python itself would raise at that point). -/

inductive CertErr where
  /-- `fetch_url`: `raise Exception(f"HTTP {e.code}: {body}")` (line 358). -/
  | httpError (code : Nat) (body : String)
  /-- `acme_request`: `raise Exception(f"ACME error {e.code}: {body}")` (line 469). -/
  | acmeError (code : Nat) (body : String)
  /-- Python `KeyError` from a `dict[...]` access or missing header. -/
  | keyError (key : String)
  /-- Python `IndexError` from `list[0]` on an empty list. -/
  | indexError
  /-- Python `TypeError` from indexing/iterating a value of the wrong type
  (including `urllib` rejecting a non-string URL). -/
  | typeError
  /-- `json.loads` raising `JSONDecodeError`. -/
  | jsonError
  /-- `raise Exception("No DNS-01 challenge found")` (line 208). -/
  | noDns01Challenge
  /-- `raise Exception(f"Challenge failed: {auth}")` (line 259). -/
  | challengeFailed (auth : JV)
  /-- `raise Exception("Challenge validation timeout")` (line 263). -/
  | challengeTimeout
  /-- `raise Exception(f"Order failed: {order}")` (line 277). -/
  | orderFailed (ord : JV)
  /-- `raise Exception("Order finalization timeout")` (line 281). -/
  | orderTimeout
  /-- `x509.load_pem_x509_certificate` failing on the downloaded leaf (line 296). -/
  | certParseError

/-! ## Transport (`fetch_url` lines 347-358, `acme_request` lines 452-469) -/

/-- Outcome of one plain HTTP fetch, body only (`fetch_url` without
`return_headers`). -/
inductive FResp where
  | ok (body : String)
  | httpErr (code : Nat) (body : String)

/-- Outcome of a header-returning fetch (`fetch_url(..., method='HEAD',
return_headers=True)`). -/
inductive HResp where
  | ok (headers : List (String × String))
  | httpErr (code : Nat) (body : String)

/-- Outcome of one signed POST as seen on the wire: a response body,
headers and `Replay-Nonce` header value, or an HTTP error response (which
also carries a `Replay-Nonce` header, possibly absent). -/
inductive Resp where
  | ok (body : String) (headers : List (String × String)) (replayNonce : Option String)
  | err (code : Nat) (body : String) (replayNonce : Option String)

/-- `fetch_url` (lines 347-358): return the body, or raise on `HTTPError`. -/
def fetch_url : FResp → Except CertErr String
  | .ok body => .ok body
  | .httpErr code body => .error (.httpError code body)

/-- `fetch_url` with `return_headers=True`. -/
def fetch_url_headers : HResp → Except CertErr (List (String × String))
  | .ok headers => .ok headers
  | .httpErr code body => .error (.httpError code body)

/-- Exact-key lookup in a header dict (`dict(response.headers)` then
`.get(...)`), as in lines 192 and 396. -/
def headerGet (headers : List (String × String)) (key : String) : Option String :=
  match headers with
  | [] => none
  | (k, v) :: rest => if k = key then some v else headerGet rest key

/-- `dict[...]` on headers: `KeyError` when absent (line 162). -/
def headerIndex (headers : List (String × String)) (key : String) : Except CertErr String :=
  match headerGet headers key with
  | some v => .ok v
  | none => .error (.keyError key)

/-- The request/response step of `acme_request` (lines 452-469): on a 2xx
response return `(body, headers, Replay-Nonce)`; on an `HTTPError` the
source computes `new_nonce = e.headers.get('Replay-Nonce', nonce)` (line
468) — a dead assignment — and then raises, so the error carries no nonce
back to the caller and the caller's current nonce is not replaced. -/
def acme_request_transport (resp : Resp) (nonce : Option String) :
    Except CertErr (String × List (String × String) × Option String) :=
  match resp with
  | .ok body headers replayNonce => .ok (body, headers, replayNonce)
  | .err code body replayNonce =>
      let _new_nonce : Option String :=
        match replayNonce with
        | some n => some n
        | none => nonce
      .error (.acmeError code body)

/-! ## Loading or creating the account key (lines 138-156) -/

/-- What the single `try:` block of lines 139-152 binds `account_key` to
before the `if account_key is None` check: `none` as soon as the secret is
absent, its JSON unparseable, the `account_key` member missing or not a
string, or `load_pem_private_key` fails — the bare `except:` maps every
failure to `None`. -/
def loadAccountKeyAux (jloads : String → Option JV) (loadPem : String → Option EcKey)
    (stored : Option String) : Option EcKey :=
  match stored with
  | none => none
  | some s =>
      match jloads s with
      | none => none
      | some sd =>
          match sd with
          | .obj fields =>
              match lookupField fields "account_key" with
              | none => none
              | some (.str pem) => loadPem pem
              | some _ => none
          | _ => none

/-- Lines 138-156 as a whole: reuse the stored key when it loads, else
`ec.generate_private_key(ec.SECP256R1(), ...)` (modelled by `fresh`).
This function cannot fail. -/
def loadAccountKey (jloads : String → Option JV) (loadPem : String → Option EcKey)
    (stored : Option String) (fresh : EcKey) : EcKey :=
  match loadAccountKeyAux jloads loadPem stored with
  | some key => key
  | none => fresh

/-! ## PEM chain splitting (`generate_certificate`, lines 288-294) -/

/-- Python `str.split(sep)` for a non-empty separator, on char lists:
leftmost non-overlapping occurrences. -/
def splitSep (sep : List Char) : List Char → List (List Char)
  | [] => [[]]
  | c :: rest =>
      if h : sep ≠ [] ∧ sep.isPrefixOf (c :: rest) then
        [] :: splitSep sep ((c :: rest).drop sep.length)
      else
        (splitSep sep rest).modifyHead (c :: ·)
termination_by s => s.length
decreasing_by
  · simp only [List.length_drop, List.length_cons]
    have hs : sep.length ≠ 0 := by
      simpa [List.length_eq_zero] using h.1
    omega
  · simp

/-- Python `sep.join(parts)` on char lists. -/
def joinSep (sep : List Char) : List (List Char) → List Char
  | [] => []
  | [x] => x
  | x :: y :: rest => x ++ sep ++ joinSep sep (y :: rest)

/-- Python `str.isspace` characters relevant to `str.strip()`. -/
def isPySpace (c : Char) : Bool :=
  c.toNat = 32 || c.toNat = 9 || c.toNat = 10 || c.toNat = 13 || c.toNat = 11 || c.toNat = 12

/-- Python `str.strip()` on char lists. -/
def pyStripChars (l : List Char) : List Char :=
  ((l.dropWhile isPySpace).reverse.dropWhile isPySpace).reverse

/-- The literal `'-----END CERTIFICATE-----'` used in lines 289-293. -/
def endCertMarker : List Char := "-----END CERTIFICATE-----".data

/-- Lines 289-293 of `generate_certificate`: split the downloaded PEM
stream into the leaf certificate and the (possibly empty) chain:

    certs = cert_pem.split('-----END CERTIFICATE-----')
    certificate = certs[0] + '-----END CERTIFICATE-----\n'
    chain = '-----END CERTIFICATE-----'.join(certs[1:]).strip()
    if chain:
        chain = chain + '\n'
-/
def split_cert_chain (cert_pem : String) : String × String :=
  let certs := splitSep endCertMarker cert_pem.data
  let certificate := certs.headD [] ++ endCertMarker ++ ['\n']
  let chain0 := pyStripChars (joinSep endCertMarker (certs.drop 1))
  let chain := if chain0 = ([] : List Char) then chain0 else chain0 ++ ['\n']
  (String.mk certificate, String.mk chain)

/-! ## JSON access helpers (Python `dict`/`list` semantics) -/

/-- `j[key]`: a `KeyError` when the key is absent, a `TypeError` when `j`
is not a dict. -/
def jIndex (j : JV) (key : String) : Except CertErr JV :=
  match j with
  | .obj fields =>
      match lookupField fields key with
      | some v => .ok v
      | none => .error (.keyError key)
  | _ => .error .typeError

/-- A value about to be used as a request URL must be a string, else
`urllib.request.Request` raises. -/
def asUrl : JV → Except CertErr String
  | .str s => .ok s
  | _ => .error .typeError

/-- `j[key]` followed by use as a URL. -/
def jIndexUrl (j : JV) (key : String) : Except CertErr String := do
  asUrl (← jIndex j key)

/-- `j[i]` for an integer index: `IndexError` past the end.  (Python would
also accept indexing a *string* here; ACME order bodies carry arrays, and
the embedding treats every non-array as the `TypeError` Python raises for
dicts and scalars.) -/
def jAt (j : JV) (i : Nat) : Except CertErr JV :=
  match j with
  | .arr items =>
      match items.get? i with
      | some v => .ok v
      | none => .error .indexError
  | _ => .error .typeError

/-- Python iteration `for c in j`: arrays yield elements, dicts yield their
keys, strings their characters; other values raise `TypeError`. -/
def pyIter : JV → Except CertErr (List JV)
  | .arr items => .ok items
  | .obj fields => .ok (fields.map (fun kv => JV.str kv.1))
  | .str s => .ok (s.data.map (fun c => JV.str (String.mk [c])))
  | _ => .error .typeError

/-- Python `j == s` for a string literal `s`: string equality when `j` is
a string, `False` otherwise. -/
def jEqStr (j : JV) (s : String) : Bool :=
  match j with
  | .str t => t = s
  | _ => false

/-- Python `key in j` for a dict (lines 142, 274). -/
def jHasKey (j : JV) (key : String) : Bool :=
  match j with
  | .obj fields => (lookupField fields key).isSome
  | _ => false

/-- `json.loads` (a library primitive, passed in as `jloads`): a parse
failure raises. -/
def json_loads (jloads : String → Option JV) (s : String) : Except CertErr JV :=
  match jloads s with
  | some j => .ok j
  | none => .error .jsonError

/-- Lines 201-205: scan `auth['challenges']` for the first entry whose
`type` is `"dns-01"`; each candidate's `c['type']` access can itself
raise. -/
def findDns01 : List JV → Except CertErr (Option JV)
  | [] => .ok none
  | c :: rest =>
      match c with
      | .obj fields =>
          match lookupField fields "type" with
          | none => .error (.keyError "type")
          | some t => if jEqStr t "dns-01" then .ok (some c) else findDns01 rest
      | _ => .error .typeError

/-! ## The polling loops (lines 237-244, 250-263, 270-281) -/

/-- What one poll iteration decides, after the signed request and the
status checks of the loop body. -/
inductive PollStep where
  | cont
  | valid (body : JV)
  | invalid (body : JV)
  | raise (e : CertErr)

/-- One iteration of the authorization poll (lines 252-259): request,
`json.loads`, then `auth['status']` compared against `'valid'` /
`'invalid'`. -/
def authStep (jloads : String → Option JV) (r : Resp) : PollStep :=
  match r with
  | .err code body _ => .raise (.acmeError code body)
  | .ok body _ _ =>
      match jloads body with
      | none => .raise .jsonError
      | some auth =>
          match jIndex auth "status" with
          | .error e => .raise e
          | .ok v =>
              if jEqStr v "valid" then .valid auth
              else if jEqStr v "invalid" then .invalid auth
              else .cont

/-- One iteration of the order poll (lines 271-277): break needs
`status == 'valid' and 'certificate' in order`; `status == 'invalid'`
raises; anything else keeps polling. -/
def orderStep (jloads : String → Option JV) (r : Resp) : PollStep :=
  match r with
  | .err code body _ => .raise (.acmeError code body)
  | .ok body _ _ =>
      match jloads body with
      | none => .raise .jsonError
      | some ord =>
          match jIndex ord "status" with
          | .error e => .raise e
          | .ok v =>
              if jEqStr v "valid" && jHasKey ord "certificate" then .valid ord
              else if jEqStr v "invalid" then .invalid ord
              else .cont

/-- Result of a bounded poll loop: how many requests were issued, total
seconds slept, the nonce after the last response, and how the loop ended
(`timeout` is the `for ... else` branch). -/
inductive PollOut where
  | ok (polls slept : Nat) (nonce : Option String) (body : JV)
  | invalid (polls slept : Nat) (nonce : Option String) (body : JV)
  | raised (polls slept : Nat) (nonce : Option String) (e : CertErr)
  | timeout (polls slept : Nat) (nonce : Option String)

/-- Number of signed requests the loop issued. -/
def PollOut.polls : PollOut → Nat
  | .ok p _ _ _ => p
  | .invalid p _ _ _ => p
  | .raised p _ _ _ => p
  | .timeout p _ _ => p

/-- The `for _ in range(n): request; check; time.sleep(interval)` pattern
of lines 250-263 and 270-281.  `fuel` counts remaining iterations, `i` the
requests already issued, `slept` the seconds slept so far.  The nonce is
replaced by each response's `Replay-Nonce` as soon as the request
returns (line 252 / 271); an HTTP error raises before that assignment. -/
def pollLoop (step : Resp → PollStep) (rs : Nat → Resp) (interval : Nat) :
    Nat → Nat → Nat → Option String → PollOut
  | 0, i, slept, nonce => .timeout i slept nonce
  | fuel + 1, i, slept, nonce =>
      let nonce2 := match rs i with
        | .ok _ _ rn => rn
        | .err _ _ _ => nonce
      match step (rs i) with
      | .raise e => .raised (i + 1) slept nonce2 e
      | .valid j => .ok (i + 1) slept nonce2 j
      | .invalid j => .invalid (i + 1) slept nonce2 j
      | .cont => pollLoop step rs interval fuel (i + 1) (slept + interval) nonce2

/-- The DNS propagation wait (lines 237-241):

    while True:
        change_status = route53.get_change(Id=change_id)
        if change_status['ChangeInfo']['Status'] == 'INSYNC':
            break
        time.sleep(5)

There is no attempt cap; the embedding gives the loop explicit `fuel` and
returns `none` when `fuel` iterations did not see `INSYNC` — the source
would still be looping at that point.  On success it returns the number of
status polls made and the seconds slept. -/
def dnsWaitLoop (inSync : Nat → Bool) : Nat → Nat → Nat → Option (Nat × Nat)
  | 0, _, _ => none
  | fuel + 1, i, slept =>
      if inSync i then some (i + 1, slept)
      else dnsWaitLoop inSync fuel (i + 1) (slept + 5)

/-! ## The issuance pipeline (`generate_certificate`, lines 115-344) -/

/-- Python-library primitives used by `generate_certificate`, abstracted:
`json.loads`, `load_pem_private_key`, `hashlib.sha256`, f-string
formatting, `ec.generate_private_key` (the fresh key it would return),
the PEM serializations of the fresh RSA certificate key and of the
account key, x509 parsing of the leaf for `not_valid_after_utc`
(`none` = parse failure), and the `DOMAIN` environment value. -/
structure Prims where
  jloads : String → Option JV
  loadPem : String → Option EcKey
  sha256 : List Nat → List Nat
  pyFormat : JV → String
  freshAccountKey : EcKey
  certKeyPem : String
  accountKeyPem : EcKey → String
  notAfter : String → Option String
  domain : String

/-- One issuance attempt's network environment, indexed by protocol step
(and by attempt number for the polled steps). -/
structure Env where
  storedSecret : Option String
  directoryResp : FResp
  nonceResp : HResp
  registerResp : Resp
  newOrderResp : Resp
  authFetchResp : Resp
  dnsInSync : Nat → Bool
  challengeResp : Resp
  authPollResps : Nat → Resp
  finalizeResp : Resp
  orderPollResps : Nat → Resp
  certResp : Resp

/-- The payload of the registration request (line 394):
`{'termsOfServiceAgreed': True}`. -/
def registerPayload : JV := .obj [("termsOfServiceAgreed", .bool true)]

/-- `acme_register` (lines 392-397): one signed request, account URL from
the `Location` header, new nonce from the response. -/
def acme_register (resp : Resp) (nonce : Option String) :
    Except CertErr (Option String × Option String) := do
  let (_body, headers, newNonce) ← acme_request_transport resp nonce
  .ok (headerGet headers "Location", newNonce)

/-- State carried out of the preparation steps into the polling phases. -/
structure PrepCtx where
  accountKey : EcKey
  accountUrl : Option String
  order : JV
  orderUrl : Option String
  challenge : JV
  dnsValue : String
  nonce : Option String

/-- Lines 138-233 of `generate_certificate`: everything before the DNS
propagation wait — account key, directory, initial nonce, registration,
order creation, authorization fetch, dns-01 challenge selection, key
authorization / TXT record value, Route53 upsert (an external call whose
failure modes are not modelled). -/
def prepareBeforeDns (P : Prims) (env : Env) : Except CertErr PrepCtx := do
  let account_key := loadAccountKey P.jloads P.loadPem env.storedSecret P.freshAccountKey
  let directory ← json_loads P.jloads (← fetch_url env.directoryResp)
  let _newNonceUrl ← jIndexUrl directory "newNonce"
  let headers ← fetch_url_headers env.nonceResp
  let nonce0 ← headerIndex headers "Replay-Nonce"
  let _newAccountUrl ← jIndexUrl directory "newAccount"
  let (account_url, nonce1) ← acme_register env.registerResp (some nonce0)
  -- lines 169-184: the fresh RSA certificate key and the CSR are built by
  -- the cryptography library from in-memory values; no failure to model
  let _newOrderUrl ← jIndexUrl directory "newOrder"
  let (orderBody, orderHeaders, nonce2) ← acme_request_transport env.newOrderResp nonce1
  let order ← json_loads P.jloads orderBody
  let order_url := headerGet orderHeaders "Location"
  let auths ← jIndex order "authorizations"
  let _authUrl ← asUrl (← jAt auths 0)
  let (authBody, _, nonce3) ← acme_request_transport env.authFetchResp nonce2
  let auth ← json_loads P.jloads authBody
  let challengeList ← pyIter (← jIndex auth "challenges")
  let challenge ← match ← findDns01 challengeList with
    | some c => pure c
    | none => .error .noDns01Challenge
  let token ← jIndex challenge "token"
  let thumbprint := jwk_thumbprint P.sha256 account_key
  let key_auth := P.pyFormat token ++ "." ++ thumbprint
  let dns_value := base64url_encode (P.sha256 (utf8Bytes key_auth))
  .ok { accountKey := account_key, accountUrl := account_url, order := order,
        orderUrl := order_url, challenge := challenge, dnsValue := dns_value,
        nonce := nonce3 }

/-- Lines 138-248: the preparation steps, the unbounded DNS wait (given
explicit `fuel`; `none` = the source is still inside `while True`), the
fixed 10-second settle sleep (line 244), and the challenge-verification
request (line 248, payload `{}`).  Returns the context plus the DNS poll
count and seconds slept in the DNS wait. -/
def preparePhase (P : Prims) (env : Env) (fuel : Nat) :
    Option (Except CertErr PrepCtx × Nat × Nat) :=
  match prepareBeforeDns P env with
  | .error e => some (.error e, 0, 0)
  | .ok ctx =>
      match dnsWaitLoop env.dnsInSync fuel 0 0 with
      | none => none
      | some (dnsPolls, dnsSlept) =>
          match jIndexUrl ctx.challenge "url" with
          | .error e => some (.error e, dnsPolls, dnsSlept)
          | .ok _ =>
              match acme_request_transport env.challengeResp ctx.nonce with
              | .error e => some (.error e, dnsPolls, dnsSlept)
              | .ok (_, _, nonce4) => some (.ok { ctx with nonce := nonce4 }, dnsPolls, dnsSlept)

/-- Externally visible effects of one attempt: the values written to the
secret store (`put_secret_value`, line 341), the number of finalize
requests issued (line 267), and the number of polls in each waiting
loop. -/
structure Trace where
  puts : List JV
  finalizes : Nat
  authPolls : Nat
  orderPolls : Nat
  dnsPolls : Nat

/-- Lines 265-344: finalize the order, poll the order URL, download the
certificate, split leaf from chain, parse the expiry, clean up the TXT
record (lines 300-317: caught and logged only), assemble the bundle and
write it to the secret store — the single `put_secret_value` of the
attempt. -/
def finishPhase (P : Prims) (env : Env) (ctx : PrepCtx) (dnsPolls authPolls : Nat)
    (nonce : Option String) : Except CertErr JV × Trace :=
  let tr := fun (fin op : Nat) (puts : List JV) =>
    { puts := puts, finalizes := fin, authPolls := authPolls, orderPolls := op,
      dnsPolls := dnsPolls : Trace }
  match jIndexUrl ctx.order "finalize" with
  | .error e => (.error e, tr 0 0 [])
  | .ok _ =>
      match acme_request_transport env.finalizeResp nonce with
      | .error e => (.error e, tr 1 0 [])
      | .ok (_, _, nonce5) =>
          match ctx.orderUrl with
          | none => (.error .typeError, tr 1 0 [])
          | some _ =>
              match pollLoop (orderStep P.jloads) env.orderPollResps 2 30 0 0 nonce5 with
              | .raised p _ _ e => (.error e, tr 1 p [])
              | .invalid p _ _ o => (.error (.orderFailed o), tr 1 p [])
              | .timeout p _ _ => (.error .orderTimeout, tr 1 p [])
              | .ok p _ nonce6 finalOrder =>
                  match jIndexUrl finalOrder "certificate" with
                  | .error e => (.error e, tr 1 p [])
                  | .ok _ =>
                      match acme_request_transport env.certResp nonce6 with
                      | .error e => (.error e, tr 1 p [])
                      | .ok (cert_pem, _, _) =>
                          let leafAndChain := split_cert_chain cert_pem
                          match P.notAfter leafAndChain.1 with
                          | none => (.error .certParseError, tr 1 p [])
                          | some expires =>
                              let cert_data : JV := .obj
                                [("certificate", .str leafAndChain.1),
                                 ("chain", .str leafAndChain.2),
                                 ("private_key", .str P.certKeyPem),
                                 ("domain", .str P.domain),
                                 ("expires", .str expires),
                                 ("account_key", .str (P.accountKeyPem ctx.accountKey))]
                              (.ok (.obj [("statusCode", .num 200),
                                  ("body", .str (json_dumps (.obj
                                    [("message", .str "Certificate generated"),
                                     ("expires", .str expires)])))]),
                               tr 1 p [cert_data])

/-- `generate_certificate` (lines 115-344) as one attempt over `Env`:
`none` means the attempt is still inside the unbounded DNS wait after
`fuel` status polls; otherwise the result (the handler's return value or
the exception) plus the attempt's effect trace. -/
def generate_certificate (P : Prims) (env : Env) (fuel : Nat) :
    Option (Except CertErr JV × Trace) :=
  match preparePhase P env fuel with
  | none => none
  | some (.error e, dnsPolls, _) =>
      some (.error e, { puts := [], finalizes := 0, authPolls := 0, orderPolls := 0,
                        dnsPolls := dnsPolls })
  | some (.ok ctx, dnsPolls, _) =>
      match pollLoop (authStep P.jloads) env.authPollResps 2 30 0 0 ctx.nonce with
      | .raised p _ _ e =>
          some (.error e, { puts := [], finalizes := 0, authPolls := p, orderPolls := 0,
                            dnsPolls := dnsPolls })
      | .invalid p _ _ a =>
          some (.error (.challengeFailed a), { puts := [], finalizes := 0, authPolls := p,
                                               orderPolls := 0, dnsPolls := dnsPolls })
      | .timeout p _ _ =>
          some (.error .challengeTimeout, { puts := [], finalizes := 0, authPolls := p,
                                            orderPolls := 0, dnsPolls := dnsPolls })
      | .ok p _ nonce _ => some (finishPhase P env ctx dnsPolls p nonce)

/-! ## Certificate download endpoint (`handle_api_request`, lines 36-71) -/

/-- An API Gateway style response as built by `handle_api_request`. -/
structure ApiResponse where
  statusCode : Nat
  headers : List (String × String)
  body : String

/-- `handle_api_request` (lines 36-71).  `authHeader` is the incoming
`authorization` header (`''` when absent), `certTokenEnv` the `CERT_TOKEN`
environment value (`none` when unset — `os.environ.get('CERT_TOKEN', '')`
then yields `''`), `storedSecret` the parsed secret (`none` =
`ResourceNotFoundException`).  The `account_key` member is popped before
returning; `.pop` on a non-dict raises into the broad handler (500). -/
def handle_api_request (authHeader : String) (certTokenEnv : Option String)
    (storedSecret : Option JV) : ApiResponse :=
  let expected_token := certTokenEnv.getD ""
  if !("Bearer ".data.isPrefixOf authHeader.data)
      || String.mk (authHeader.data.drop 7) != expected_token then
    { statusCode := 403, headers := [],
      body := json_dumps (.obj [("error", .str "Invalid authorization")]) }
  else
    match storedSecret with
    | none =>
        { statusCode := 404, headers := [],
          body := json_dumps (.obj [("error", .str "Certificate not yet generated")]) }
    | some (.obj fields) =>
        { statusCode := 200, headers := [("Content-Type", "application/json")],
          body := json_dumps (.obj (eraseField "account_key" fields)) }
    | some _ =>
        { statusCode := 500, headers := [],
          body := json_dumps (.obj [("error", .str "Failed to retrieve certificate")]) }

/-- A character `json.dumps` copies into a string literal unchanged. -/
def PlainChar (c : Char) : Prop :=
  32 ≤ c.toNat ∧ c.toNat < 127 ∧ c.toNat ≠ 34 ∧ c.toNat ≠ 92

/-- Concrete primitives for the `C3` counterexample: the stored secret is
present, holds `account_key` bytes, and those bytes are malformed
(`load_pem_private_key` fails on them). -/
def jloadsBadKey : String → Option JV := fun s =>
  if s = "secretB" then some (.obj [("account_key", .str "BADPEM")]) else none

/-- Concrete primitives where the stored key bytes load fine. -/
def jloadsGoodKey : String → Option JV := fun s =>
  if s = "secretG" then some (.obj [("account_key", .str "GOODPEM")]) else none

/-- A `json.loads` table for the concrete pipeline scenarios below. -/
def tblJloads : String → Option JV := fun s =>
  if s = "dirB" then
    some (.obj [("newNonce", .str "uN"), ("newAccount", .str "uA"), ("newOrder", .str "uO")])
  else if s = "orderB" then
    some (.obj [("authorizations", .arr [.str "authU"]), ("finalize", .str "finU")])
  else if s = "authB" then
    some (.obj [("status", .str "pending"),
      ("challenges", .arr [.obj [("type", .str "dns-01"), ("token", .str "tok"),
        ("url", .str "chU")]])])
  else if s = "pendB" then some (.obj [("status", .str "pending")])
  else if s = "invB" then some (.obj [("status", .str "invalid")])
  else none

/-- Concrete primitives for the pipeline scenarios. -/
def tblPrims : Prims :=
  { jloads := tblJloads, loadPem := fun _ => none, sha256 := fun _ => [],
    pyFormat := fun _ => "t", freshAccountKey := ⟨1, 2⟩, certKeyPem := "CKP",
    accountKeyPem := fun _ => "AKP", notAfter := fun _ => none, domain := "example.com" }

/-- An environment whose DNS change never reaches `INSYNC`: every step up
to the DNS wait succeeds, then the provider reports pending forever. -/
def envStuckDns : Env :=
  { storedSecret := none, directoryResp := .ok "dirB",
    nonceResp := .ok [("Replay-Nonce", "n0")],
    registerResp := .ok "" [("Location", "acct")] (some "n1"),
    newOrderResp := .ok "orderB" [("Location", "ordU")] (some "n2"),
    authFetchResp := .ok "authB" [] (some "n3"),
    dnsInSync := fun _ => false,
    challengeResp := .ok "" [] (some "n4"),
    authPollResps := fun _ => .ok "pendB" [] (some "n5"),
    finalizeResp := .err 0 "unused" none,
    orderPollResps := fun _ => .err 0 "unused" none,
    certResp := .err 0 "unused" none }

/-- Same environment with DNS immediately in sync: the attempt reaches the
authorization poll, where every poll reports `pending`. -/
def envAuthTimeout : Env := { envStuckDns with dnsInSync := fun _ => true }

/-- An environment failing at the very first network step (directory
fetch). -/
def envEarlyFail : Env := { envStuckDns with directoryResp := .httpErr 500 "boom" }

/-- The context `prepareBeforeDns` produces in the scenarios above. -/
def ctxStuck : PrepCtx :=
  { accountKey := ⟨1, 2⟩, accountUrl := some "acct",
    order := .obj [("authorizations", .arr [.str "authU"]), ("finalize", .str "finU")],
    orderUrl := some "ordU",
    challenge := .obj [("type", .str "dns-01"), ("token", .str "tok"), ("url", .str "chU")],
    dnsValue := "", nonce := some "n3" }

/-- The context as it stands after the challenge notification. -/
def ctxTimeout : PrepCtx := { ctxStuck with nonce := some "n4" }

/-- Authorization poll responses: pending on the first poll, invalid on
the second. -/
def fInv : Nat → Resp := fun i =>
  if i = 0 then .ok "pendB" [] (some "n5") else .ok "invB" [] (some "n6")

/-! ## Basic lemmas: strings, base64url, byte serialization -/

lemma stringExt {a b : String} (h : a.data = b.data) : a = b := congrArg String.mk h

lemma dataAppend (a b : String) : (a ++ b).data = a.data ++ b.data := rfl

lemma b64Inv_b64Char : ∀ n < 64, b64Inv (b64Char n) = n := by decide

/-- Every base64url alphabet character is a plain printable ASCII
character: not `=`, not `"`, not `\`, code in `[32, 127)`. -/
lemma b64Char_plain : ∀ n < 64,
    (b64Char n).toNat ≠ 61 ∧ (b64Char n).toNat ≠ 34 ∧ (b64Char n).toNat ≠ 92
      ∧ 32 ≤ (b64Char n).toNat ∧ (b64Char n).toNat < 127 := by decide

/-- Bytes of `to_bytes_be` are in range. -/
lemma to_bytes_be_lt : ∀ (len n : Nat), ∀ b ∈ to_bytes_be len n, b < 256 := by
  intro len
  induction len with
  | zero => intro n b hb; simp [to_bytes_be] at hb
  | succ l ih =>
      intro n b hb
      simp only [to_bytes_be, List.mem_append, List.mem_singleton] at hb
      rcases hb with hb | hb
      · exact ih _ _ hb
      · subst hb; exact Nat.mod_lt _ (by omega)

lemma to_bytes_be_length : ∀ (len n : Nat), (to_bytes_be len n).length = len := by
  intro len
  induction len with
  | zero => intro n; rfl
  | succ l ih => intro n; simp [to_bytes_be, ih]

/-- `to_bytes_be` is injective on values that fit. -/
lemma to_bytes_be_inj : ∀ (len a b : Nat), a < 256 ^ len → b < 256 ^ len →
    to_bytes_be len a = to_bytes_be len b → a = b := by
  intro len
  induction len with
  | zero => intro a b ha hb _; simp [Nat.pow_zero] at ha hb; omega
  | succ l ih =>
      intro a b ha hb h
      simp only [to_bytes_be] at h
      have hlen : (to_bytes_be l (a / 256)).length = (to_bytes_be l (b / 256)).length := by
        simp [to_bytes_be_length]
      obtain ⟨h1, h2⟩ := List.append_inj h hlen
      have hd : a / 256 = b / 256 := by
        refine ih _ _ ?_ ?_ h1
        · have : 256 ^ (l + 1) = 256 ^ l * 256 := by ring
          omega
        · have : 256 ^ (l + 1) = 256 ^ l * 256 := by ring
          omega
      have hm : a % 256 = b % 256 := by simpa using h2
      omega

/-- All characters `b64Body` emits come from the alphabet, provided the
input is made of bytes. -/
lemma b64Body_mem : ∀ (bs : List Nat), (∀ b ∈ bs, b < 256) →
    ∀ c ∈ b64Body bs, ∃ n, n < 64 ∧ c = b64Char n
  | [], _ => by intro c hc; simp [b64Body] at hc
  | [a], h => by
      intro c hc
      have ha : a < 256 := h a (by simp)
      simp only [b64Body, List.mem_cons, List.not_mem_nil, or_false] at hc
      rcases hc with hc | hc
      · exact ⟨a / 4, by omega, hc⟩
      · exact ⟨a % 4 * 16, by omega, hc⟩
  | [a, b], h => by
      intro c hc
      have ha : a < 256 := h a (by simp)
      have hb : b < 256 := h b (by simp)
      simp only [b64Body, List.mem_cons, List.not_mem_nil, or_false] at hc
      rcases hc with hc | hc | hc
      · exact ⟨a / 4, by omega, hc⟩
      · exact ⟨a % 4 * 16 + b / 16, by omega, hc⟩
      · exact ⟨b % 16 * 4, by omega, hc⟩
  | a :: b :: c0 :: rest, h => by
      intro c hc
      have ha : a < 256 := h a (by simp)
      have hb : b < 256 := h b (by simp)
      have hc0 : c0 < 256 := h c0 (by simp)
      simp only [b64Body, List.mem_cons] at hc
      rcases hc with hc | hc | hc | hc | hc
      · exact ⟨a / 4, by omega, hc⟩
      · exact ⟨a % 4 * 16 + b / 16, by omega, hc⟩
      · exact ⟨b % 16 * 4 + c0 / 64, by omega, hc⟩
      · exact ⟨c0 % 64, by omega, hc⟩
      · exact b64Body_mem rest (fun x hx => h x (by simp [hx])) c hc

/-- `b64Body` never emits `=`. -/
lemma b64Body_ne_pad (bs : List Nat) (h : ∀ b ∈ bs, b < 256) :
    ∀ c ∈ b64Body bs, c ≠ '=' := by
  intro c hc
  obtain ⟨n, hn, rfl⟩ := b64Body_mem bs h c hc
  intro hEq
  have := (b64Char_plain n hn).1
  exact this (by rw [hEq]; rfl)

/-- `rstrip(b'=')` removes exactly the padding. -/
lemma rstripEq_append (l : List Char) (k : Nat) (h : ∀ c ∈ l, c ≠ '=') :
    rstripEqChars (l ++ List.replicate k '=') = l := by
  unfold rstripEqChars
  rw [List.reverse_append, List.reverse_replicate]
  have h1 : (List.replicate k '=' ++ l.reverse).dropWhile (· = '=') = l.reverse.dropWhile (· = '=') := by
    induction k with
    | zero => simp
    | succ m ih => simpa [List.replicate_succ, List.dropWhile] using ih
  rw [h1]
  have h2 : l.reverse.dropWhile (· = '=') = l.reverse := by
    cases hrev : l.reverse with
    | nil => simp
    | cons c t =>
        have hcl : c ∈ l := by
          have : c ∈ l.reverse := by rw [hrev]; simp
          simpa using this
        simp [List.dropWhile, h c hcl]
  rw [h2, List.reverse_reverse]

/-- On byte input, `base64url_encode` is the raw unpadded body. -/
lemma base64url_encode_eq_body (bs : List Nat) (h : ∀ b ∈ bs, b < 256) :
    base64url_encode bs = String.mk (b64Body bs) := by
  unfold base64url_encode b64Padded
  rw [rstripEq_append _ _ (b64Body_ne_pad bs h)]

/-- Decoding recovers the bytes. -/
lemma b64Body_decode : ∀ (bs : List Nat), (∀ b ∈ bs, b < 256) →
    b64BodyDecode (b64Body bs) = bs
  | [], _ => rfl
  | [a], h => by
      have ha : a < 256 := h a (by simp)
      show b64BodyDecode [b64Char (a / 4), b64Char (a % 4 * 16)] = [a]
      simp only [b64BodyDecode]
      rw [b64Inv_b64Char (a / 4) (by omega), b64Inv_b64Char (a % 4 * 16) (by omega)]
      simp only [List.cons.injEq, and_true]
      omega
  | [a, b], h => by
      have ha : a < 256 := h a (by simp)
      have hb : b < 256 := h b (by simp)
      show b64BodyDecode [b64Char (a / 4), b64Char (a % 4 * 16 + b / 16), b64Char (b % 16 * 4)] = [a, b]
      simp only [b64BodyDecode]
      rw [b64Inv_b64Char (a / 4) (by omega), b64Inv_b64Char (a % 4 * 16 + b / 16) (by omega),
        b64Inv_b64Char (b % 16 * 4) (by omega)]
      simp only [List.cons.injEq, and_true]
      constructor
      · omega
      · omega
  | a :: b :: c :: rest, h => by
      have ha : a < 256 := h a (by simp)
      have hb : b < 256 := h b (by simp)
      have hc : c < 256 := h c (by simp)
      have ih := b64Body_decode rest (fun x hx => h x (by simp [hx]))
      show b64BodyDecode (b64Char (a / 4) :: b64Char (a % 4 * 16 + b / 16)
        :: b64Char (b % 16 * 4 + c / 64) :: b64Char (c % 64) :: b64Body rest) = a :: b :: c :: rest
      simp only [b64BodyDecode]
      rw [b64Inv_b64Char (a / 4) (by omega), b64Inv_b64Char (a % 4 * 16 + b / 16) (by omega),
        b64Inv_b64Char (b % 16 * 4 + c / 64) (by omega), b64Inv_b64Char (c % 64) (by omega), ih]
      simp only [List.cons.injEq, and_true]
      refine ⟨by omega, by omega, by omega⟩

/-- `base64url_encode` is injective on byte lists. -/
lemma base64url_encode_inj (bs cs : List Nat) (hbs : ∀ b ∈ bs, b < 256)
    (hcs : ∀ b ∈ cs, b < 256) (h : base64url_encode bs = base64url_encode cs) : bs = cs := by
  rw [base64url_encode_eq_body bs hbs, base64url_encode_eq_body cs hcs] at h
  have hdata : b64Body bs = b64Body cs := congrArg String.data h
  calc bs = b64BodyDecode (b64Body bs) := (b64Body_decode bs hbs).symm
    _ = b64BodyDecode (b64Body cs) := by rw [hdata]
    _ = cs := b64Body_decode cs hcs

/-! ## Plain-character lemmas for JSON string rendering -/

lemma escapeChar_plain {c : Char} (h : PlainChar c) : escapeChar c = [c] := by
  obtain ⟨h1, h2, h3, h4⟩ := h
  unfold escapeChar
  split_ifs <;> first | rfl | omega

lemma escapeChars_plain : ∀ l : List Char, (∀ c ∈ l, PlainChar c) → escapeChars l = l := by
  intro l
  induction l with
  | nil => intro _; rfl
  | cons c rest ih =>
      intro h
      simp only [escapeChars]
      rw [escapeChar_plain (h c (by simp)), ih (fun x hx => h x (by simp [hx]))]
      rfl

lemma pyQuote_plain (s : String) (h : ∀ c ∈ s.data, PlainChar c) :
    pyQuote s = "\"" ++ s ++ "\"" := by
  apply stringExt
  show '"' :: escapeChars s.data ++ ['"'] = _
  rw [escapeChars_plain _ h]
  rfl

lemma base64url_plain (bs : List Nat) (hb : ∀ b ∈ bs, b < 256) :
    ∀ c ∈ (base64url_encode bs).data, PlainChar c := by
  rw [base64url_encode_eq_body bs hb]
  intro c hc
  obtain ⟨n, hn, rfl⟩ := b64Body_mem bs hb c hc
  have h := b64Char_plain n hn
  exact ⟨h.2.2.2.1, h.2.2.2.2, h.2.1, h.2.2.1⟩

lemma base64url_no_pad (bs : List Nat) (hb : ∀ b ∈ bs, b < 256) :
    ∀ c ∈ (base64url_encode bs).data, c ≠ '=' := by
  rw [base64url_encode_eq_body bs hb]
  exact b64Body_ne_pad bs hb

lemma utf8Char_lt (c : Char) : ∀ b ∈ utf8Char c, b < 256 := by
  intro b hb
  have hv : c.toNat < 1114112 := by
    have hval := c.valid
    have he : c.toNat = c.val.toNat := rfl
    rcases hval with h | h <;> omega
  simp only [utf8Char] at hb
  split_ifs at hb <;> simp_all <;> omega

lemma utf8Bytes_go_lt : ∀ l : List Char, ∀ b ∈ utf8Bytes.go l, b < 256 := by
  intro l
  induction l with
  | nil => intro b hb; simp [utf8Bytes.go] at hb
  | cons c rest ih =>
      intro b hb
      simp only [utf8Bytes.go, List.mem_append] at hb
      rcases hb with hb | hb
      · exact utf8Char_lt c b hb
      · exact ih b hb

lemma utf8Bytes_lt (s : String) : ∀ b ∈ utf8Bytes s, b < 256 :=
  utf8Bytes_go_lt s.data

/-! ## Lemmas about the account-key loader -/

lemma loadAccountKey_of_aux_some (jloads : String → Option JV) (loadPem : String → Option EcKey)
    (stored : Option String) (fresh key : EcKey)
    (h : loadAccountKeyAux jloads loadPem stored = some key) :
    loadAccountKey jloads loadPem stored fresh = key := by
  unfold loadAccountKey
  rw [h]

lemma loadAccountKey_of_aux_none (jloads : String → Option JV) (loadPem : String → Option EcKey)
    (stored : Option String) (fresh : EcKey)
    (h : loadAccountKeyAux jloads loadPem stored = none) :
    loadAccountKey jloads loadPem stored fresh = fresh := by
  unfold loadAccountKey
  rw [h]

lemma loadAccountKeyAux_some_iff (jloads : String → Option JV) (loadPem : String → Option EcKey)
    (stored : Option String) (key : EcKey) :
    loadAccountKeyAux jloads loadPem stored = some key ↔
      ∃ s fields pem, stored = some s ∧ jloads s = some (.obj fields)
        ∧ lookupField fields "account_key" = some (.str pem) ∧ loadPem pem = some key := by
  constructor
  · intro h
    cases hst : stored with
    | none => subst hst; simp [loadAccountKeyAux] at h
    | some s =>
        subst hst
        cases hj : jloads s with
        | none => simp [loadAccountKeyAux, hj] at h
        | some sd =>
            cases sd with
            | obj fields =>
                cases hl : lookupField fields "account_key" with
                | none => simp [loadAccountKeyAux, hj, hl] at h
                | some v =>
                    cases v with
                    | str pem =>
                        simp only [loadAccountKeyAux, hj, hl] at h
                        exact ⟨s, fields, pem, rfl, hj, hl, h⟩
                    | num n => simp [loadAccountKeyAux, hj, hl] at h
                    | bool b => simp [loadAccountKeyAux, hj, hl] at h
                    | null => simp [loadAccountKeyAux, hj, hl] at h
                    | arr items => simp [loadAccountKeyAux, hj, hl] at h
                    | obj fs => simp [loadAccountKeyAux, hj, hl] at h
            | str s2 => simp [loadAccountKeyAux, hj] at h
            | num n => simp [loadAccountKeyAux, hj] at h
            | bool b => simp [loadAccountKeyAux, hj] at h
            | null => simp [loadAccountKeyAux, hj] at h
            | arr items => simp [loadAccountKeyAux, hj] at h
  · rintro ⟨s, fields, pem, rfl, hj, hl, hp⟩
    simp only [loadAccountKeyAux, hj, hl, hp]

/-- `C3` — The claim predicts `KeyLoadError` exactly when stored key bytes
are present but malformed.  The code's bare `except:` (line 150) maps that
case to `account_key = None`, so lines 154-156 silently create a fresh key
instead: loading `{"account_key": "BADPEM"}` with a failing
`load_pem_private_key` yields the freshly generated key `⟨5, 6⟩` — no
error is signalled to anyone. -/
theorem c3_counterexample :
    loadAccountKeyAux jloadsBadKey (fun _ => none) (some "secretB") = none
    ∧ loadAccountKey jloadsBadKey (fun _ => none) (some "secretB") ⟨5, 6⟩ = ⟨5, 6⟩ :=
  ⟨rfl, rfl⟩

/-- `C3` (amended) — Loading the account key never signals failure at all:
when the stored key is absent *or* malformed a fresh P-256 key is
generated; the stored key is reused exactly when the secret is present,
parses as JSON, has a string `account_key` member, and
`load_pem_private_key` accepts it.  No `KeyLoadError` exists in the code
(the bare `except:` of line 150 absorbs every load failure). -/
theorem c3_load_never_fails (jloads : String → Option JV) (loadPem : String → Option EcKey)
    (stored : Option String) (fresh : EcKey) :
    (∀ key, loadAccountKeyAux jloads loadPem stored = some key →
        loadAccountKey jloads loadPem stored fresh = key)
    ∧ (loadAccountKeyAux jloads loadPem stored = none →
        loadAccountKey jloads loadPem stored fresh = fresh)
    ∧ (∀ key, loadAccountKeyAux jloads loadPem stored = some key ↔
        ∃ s fields pem, stored = some s ∧ jloads s = some (.obj fields)
          ∧ lookupField fields "account_key" = some (.str pem) ∧ loadPem pem = some key) :=
  ⟨fun key h => loadAccountKey_of_aux_some jloads loadPem stored fresh key h,
   fun h => loadAccountKey_of_aux_none jloads loadPem stored fresh h,
   fun key => loadAccountKeyAux_some_iff jloads loadPem stored key⟩

/-- Witness for `c3_load_never_fails`: a present, well-formed key is
reused; the fresh key is not taken. -/
theorem c3_load_never_fails_witness :
    loadAccountKeyAux jloadsGoodKey (fun _ => some ⟨9, 9⟩) (some "secretG") = some ⟨9, 9⟩
    ∧ loadAccountKey jloadsGoodKey (fun _ => some ⟨9, 9⟩) (some "secretG") ⟨5, 6⟩ = ⟨9, 9⟩ :=
  ⟨rfl, (c3_load_never_fails jloadsGoodKey (fun _ => some ⟨9, 9⟩) (some "secretG") ⟨5, 6⟩).1
    ⟨9, 9⟩ rfl⟩

/-! ## C1: the nonce on error responses -/

/-- `C1` — The spec requires that after *every* signed request, success or
error, the current nonce is replaced by the response's nonce header.  In
`acme_request` (lines 465-469) the error branch computes
`new_nonce = e.headers.get('Replay-Nonce', nonce)` and then raises without
returning it — the assignment is dead (the comment "Return nonce even on
error for retry" notwithstanding), so the result of an error response is
identical whatever nonce header it carried, and the caller's nonce is not
replaced.  On a 2xx response the nonce *is* returned (third conjunct). -/
theorem c1_error_nonce_discarded :
    acme_request_transport (.err 400 "problem-document" (some "nonce-B")) (some "nonce-A")
      = acme_request_transport (.err 400 "problem-document" (some "nonce-C")) (some "nonce-A")
    ∧ acme_request_transport (.err 400 "problem-document" (some "nonce-B")) (some "nonce-A")
      = .error (.acmeError 400 "problem-document")
    ∧ acme_request_transport (.ok "response-body" [] (some "nonce-B")) (some "nonce-A")
      = .ok ("response-body", [], some "nonce-B") :=
  ⟨rfl, rfl, rfl⟩

/-! ## C8: the JWS payload field -/

/-- `C8` — The payload field as the spec describes it would be the compact
JSON encoding; the code (line 435) calls `json.dumps(payload)` with its
*default* separators `(', ', ': ')`.  On the registration body
`{'termsOfServiceAgreed': True}` — an actual payload of this program —
the two encodings differ. -/
theorem c8_counterexample :
    payload_b64 (some registerPayload) = "eyJ0ZXJtc09mU2VydmljZUFncmVlZCI6IHRydWV9"
    ∧ specCompactPayloadB64 (some registerPayload) = "eyJ0ZXJtc09mU2VydmljZUFncmVlZCI6dHJ1ZX0"
    ∧ payload_b64 (some registerPayload) ≠ specCompactPayloadB64 (some registerPayload) := by
  refine ⟨by decide, by decide, by decide⟩

/-- `C8` (amended) — The payload field is the unpadded base64url encoding
of `json.dumps(body)` with Python's default separators (a space after
each `:` and `,`), and the empty string when the payload is null
(POST-as-GET): no `=` ever appears in it, and on the registration body the
serialized form is `{"termsOfServiceAgreed": true}` — not compact. -/
theorem c8_payload_encoding (p : JV) :
    payload_b64 none = ""
    ∧ payload_b64 (some p) = base64url_encode (utf8Bytes (json_dumps p))
    ∧ (∀ c ∈ (payload_b64 (some p)).data, c ≠ '=')
    ∧ json_dumps registerPayload = "\x7b\"termsOfServiceAgreed\": true\x7d" := by
  refine ⟨rfl, rfl, ?_, by decide⟩
  intro c hc
  exact base64url_no_pad (utf8Bytes (json_dumps p)) (utf8Bytes_lt _) c hc

/-- Witness for `c8_payload_encoding` at the concrete registration
payload. -/
theorem c8_payload_encoding_witness :
    payload_b64 (some registerPayload) = base64url_encode (utf8Bytes (json_dumps registerPayload))
    ∧ ('=' ∈ (payload_b64 (some registerPayload)).data → False) :=
  ⟨(c8_payload_encoding registerPayload).2.1,
   fun h => (c8_payload_encoding registerPayload).2.2.1 '=' h rfl⟩

/-! ## C9 / C10: the certificate-download endpoint -/

lemma eraseField_lookup_none (key : String) (fs : List (String × JV)) :
    lookupField (eraseField key fs) key = none := by
  induction fs with
  | nil => rfl
  | cons kv rest ih =>
      obtain ⟨k, v⟩ := kv
      by_cases hk : k = key
      · subst hk
        simpa [eraseField] using ih
      · simpa [eraseField, lookupField, hk] using ih

lemma bearer_auth_check (tok : String) :
    (!("Bearer ".data.isPrefixOf ("Bearer " ++ tok).data)
      || (String.mk (("Bearer " ++ tok).data.drop 7) != tok)) = false := by
  have h1 : "Bearer ".data.isPrefixOf ("Bearer " ++ tok).data = true := by
    rw [dataAppend]
    exact List.isPrefixOf_iff_prefix.mpr (List.prefix_append _ _)
  have h2 : ("Bearer " ++ tok).data.drop 7 = tok.data := by
    rw [dataAppend]
    have hlen : ("Bearer ".data).length = 7 := rfl
    rw [← hlen, List.drop_left]
  rw [h1, h2]
  simp

/-- `C9` — With a matching bearer token, `handle_api_request` (lines
47-65) serves the stored bundle as JSON with the `account_key` member
popped — the popped object has no `account_key` member left — and when no
certificate has been stored yet (`ResourceNotFoundException`), it returns
the 404 "Certificate not yet generated" response. -/
theorem c9_fetch_current (tok : String) (fields : List (String × JV)) :
    handle_api_request ("Bearer " ++ tok) (some tok) (some (.obj fields))
      = { statusCode := 200, headers := [("Content-Type", "application/json")],
          body := json_dumps (.obj (eraseField "account_key" fields)) }
    ∧ lookupField (eraseField "account_key" fields) "account_key" = none
    ∧ handle_api_request ("Bearer " ++ tok) (some tok) none
      = { statusCode := 404, headers := [],
          body := json_dumps (.obj [("error", .str "Certificate not yet generated")]) } := by
  refine ⟨?_, eraseField_lookup_none _ _, ?_⟩
  · simp only [handle_api_request, Option.getD_some, bearer_auth_check tok,
      Bool.false_eq_true, if_false]
  · simp only [handle_api_request, Option.getD_some, bearer_auth_check tok,
      Bool.false_eq_true, if_false]

/-- `C10` — When `CERT_TOKEN` is unset or empty, `expected_token` is `''`
(line 39), so the header `"Bearer "` (empty credential) passes the check
of line 41 — `startswith('Bearer ')` holds and `auth_header[7:] == ''` —
and the certificate is served with status 200 instead of 403. -/
theorem c10_empty_token_accepted (certTokenEnv : Option String)
    (h : certTokenEnv = none ∨ certTokenEnv = some "") (fields : List (String × JV)) :
    handle_api_request "Bearer " certTokenEnv (some (.obj fields))
      = { statusCode := 200, headers := [("Content-Type", "application/json")],
          body := json_dumps (.obj (eraseField "account_key" fields)) }
    ∧ (handle_api_request "Bearer " certTokenEnv (some (.obj fields))).statusCode ≠ 403 := by
  have hgoal : handle_api_request "Bearer " certTokenEnv (some (.obj fields))
      = { statusCode := 200, headers := [("Content-Type", "application/json")],
          body := json_dumps (.obj (eraseField "account_key" fields)) } := by
    rcases h with h | h <;> subst h <;> rfl
  refine ⟨hgoal, ?_⟩
  rw [hgoal]
  simp

/-- Witness for `c10_empty_token_accepted`: unset `CERT_TOKEN`, a stored
bundle with a certificate and the account key. -/
theorem c10_empty_token_accepted_witness :
    handle_api_request "Bearer " none
        (some (.obj [("certificate", .str "PEM"), ("account_key", .str "AK")]))
      = { statusCode := 200, headers := [("Content-Type", "application/json")],
          body := json_dumps (.obj (eraseField "account_key"
            [("certificate", .str "PEM"), ("account_key", .str "AK")])) } :=
  (c10_empty_token_accepted none (Or.inl rfl)
    [("certificate", .str "PEM"), ("account_key", .str "AK")]).1

/-! ## C6: the JWK thumbprint -/

lemma b64Body_length : ∀ bs : List Nat, (b64Body bs).length = (4 * bs.length + 2) / 3
  | [] => by simp [b64Body]
  | [_] => by simp [b64Body]
  | [_, _] => by simp [b64Body]
  | a :: b :: c :: rest => by
      have ih := b64Body_length rest
      simp only [b64Body, List.length_cons, ih]
      omega

lemma b64_len_bytes (bs : List Nat) (hb : ∀ b ∈ bs, b < 256) :
    (base64url_encode bs).data.length = (4 * bs.length + 2) / 3 := by
  rw [base64url_encode_eq_body _ hb]
  exact b64Body_length bs

lemma b64_tobytes32_len (x : Nat) : (base64url_encode (to_bytes_be 32 x)).data.length = 43 := by
  rw [b64_len_bytes _ (to_bytes_be_lt 32 x), to_bytes_be_length]

/-- Splitting the canonical template around equal-length embedded
strings. -/
lemma canonical_template_inj (x1 y1 x2 y2 : String)
    (hlx : x1.data.length = x2.data.length)
    (h : "\x7b\"crv\":\"P-256\",\"kty\":\"EC\",\"x\":\"" ++ x1 ++ "\",\"y\":\"" ++ y1 ++ "\"\x7d"
       = "\x7b\"crv\":\"P-256\",\"kty\":\"EC\",\"x\":\"" ++ x2 ++ "\",\"y\":\"" ++ y2 ++ "\"\x7d") :
    x1 = x2 ∧ y1 = y2 := by
  have hd := congrArg String.data h
  simp only [dataAppend, List.append_assoc] at hd
  have hd2 := List.append_cancel_left hd
  obtain ⟨hX, hrest⟩ := List.append_inj hd2 hlx
  have hd3 := List.append_cancel_left hrest
  have hY := List.append_cancel_right hd3
  exact ⟨stringExt hX, stringExt hY⟩

/-- The canonical serialization is injective in the key's coordinates. -/
lemma jwkCanonicalJson_inj (k1 k2 : EcKey) (hx1 : k1.x < 2 ^ 256) (hy1 : k1.y < 2 ^ 256)
    (hx2 : k2.x < 2 ^ 256) (hy2 : k2.y < 2 ^ 256)
    (h : jwkCanonicalJson k1 = jwkCanonicalJson k2) : k1 = k2 := by
  unfold jwkCanonicalJson at h
  obtain ⟨hX, hY⟩ := canonical_template_inj _ _ _ _
    (by rw [b64_tobytes32_len, b64_tobytes32_len]) h
  have hpow : (256 : Nat) ^ 32 = 2 ^ 256 := by norm_num
  have hxe : k1.x = k2.x := by
    have hb := base64url_encode_inj _ _ (to_bytes_be_lt 32 k1.x) (to_bytes_be_lt 32 k2.x) hX
    exact to_bytes_be_inj 32 _ _ (by rw [hpow]; exact hx1) (by rw [hpow]; exact hx2) hb
  have hye : k1.y = k2.y := by
    have hb := base64url_encode_inj _ _ (to_bytes_be_lt 32 k1.y) (to_bytes_be_lt 32 k2.y) hY
    exact to_bytes_be_inj 32 _ _ (by rw [hpow]; exact hy1) (by rw [hpow]; exact hy2) hb
  cases k1; cases k2; simp_all

/-- `json.dumps(jwk, sort_keys=True, separators=(',', ':'))` on the JWK of
lines 379-384 produces exactly the canonical member ordering and spacing
the spec describes. -/
lemma json_dumps_jwkObj (k : EcKey) :
    json_dumps_sorted_compact (jwkObj k) = jwkCanonicalJson k := by
  have hx := pyQuote_plain (base64url_encode (to_bytes_be 32 k.x))
    (base64url_plain _ (to_bytes_be_lt _ _))
  have hy := pyQuote_plain (base64url_encode (to_bytes_be 32 k.y))
    (base64url_plain _ (to_bytes_be_lt _ _))
  have hsort : jsort (jwkObj k) = jwkObj k := rfl
  simp only [json_dumps_sorted_compact]
  rw [hsort]
  simp only [jwkObj, dumpVal, dumpFields, jwkCanonicalJson]
  rw [hx, hy]
  generalize base64url_encode (to_bytes_be 32 k.x) = bx
  generalize base64url_encode (to_bytes_be 32 k.y) = by2
  apply stringExt
  simp only [dataAppend, List.append_assoc]
  rfl

/-- `C6` — `jwk_thumbprint` equals the base64url encoding of SHA-256
applied to exactly the canonical JWK serialization the spec describes
(members `{crv, kty, x, y}` only, lexicographic key order, no whitespace,
coordinates as unpadded base64url of their 32-byte big-endian form); it
depends only on the public numbers (determinism); distinct keys give
distinct serializations; and whenever SHA-256 (abstracted, assumed to
output bytes) separates the two serializations, the thumbprints differ. -/
theorem c6_jwk_thumbprint (sha256 : List Nat → List Nat) (k k2 : EcKey)
    (hx1 : k.x < 2 ^ 256) (hy1 : k.y < 2 ^ 256) (hx2 : k2.x < 2 ^ 256) (hy2 : k2.y < 2 ^ 256)
    (hne : k ≠ k2)
    (hbytes : ∀ l : List Nat, ∀ b ∈ sha256 l, b < 256)
    (hsha : sha256 (utf8Bytes (jwkCanonicalJson k)) ≠ sha256 (utf8Bytes (jwkCanonicalJson k2))) :
    jwk_thumbprint sha256 k = base64url_encode (sha256 (utf8Bytes (jwkCanonicalJson k)))
    ∧ (∀ k3 : EcKey, k3.x = k.x → k3.y = k.y →
        jwk_thumbprint sha256 k3 = jwk_thumbprint sha256 k)
    ∧ jwkCanonicalJson k ≠ jwkCanonicalJson k2
    ∧ jwk_thumbprint sha256 k ≠ jwk_thumbprint sha256 k2 := by
  have heq : ∀ kk : EcKey,
      jwk_thumbprint sha256 kk = base64url_encode (sha256 (utf8Bytes (jwkCanonicalJson kk))) := by
    intro kk
    unfold jwk_thumbprint
    rw [json_dumps_jwkObj]
  refine ⟨heq k, ?_, ?_, ?_⟩
  · intro k3 h3x h3y
    have h3 : k3 = k := by cases k3; cases k; simp_all
    rw [h3]
  · intro hcan
    exact hne (jwkCanonicalJson_inj k k2 hx1 hy1 hx2 hy2 hcan)
  · rw [heq k, heq k2]
    intro hEq
    exact hsha (base64url_encode_inj _ _ (hbytes _) (hbytes _) hEq)

/-- Witness for `c6_jwk_thumbprint` at concrete keys `(1,2)` and `(3,4)`
with SHA-256 instantiated by a concrete byte-valued function that
separates the two serializations. -/
theorem c6_jwk_thumbprint_witness :
    ((⟨1, 2⟩ : EcKey) ≠ ⟨3, 4⟩)
    ∧ jwk_thumbprint (fun l => l.map (· % 256)) ⟨1, 2⟩
        = base64url_encode ((fun l => l.map (· % 256)) (utf8Bytes (jwkCanonicalJson ⟨1, 2⟩)))
    ∧ jwk_thumbprint (fun l => l.map (· % 256)) ⟨1, 2⟩
        ≠ jwk_thumbprint (fun l => l.map (· % 256)) ⟨3, 4⟩ := by
  have hbytes : ∀ l : List Nat, ∀ b ∈ (fun l => l.map (· % 256)) l, b < 256 := by
    intro l b hb
    simp only [List.mem_map] at hb
    obtain ⟨a, -, rfl⟩ := hb
    exact Nat.mod_lt a (by omega)
  have h := c6_jwk_thumbprint (fun l => l.map (· % 256)) ⟨1, 2⟩ ⟨3, 4⟩
    (by norm_num) (by norm_num) (by norm_num) (by norm_num)
    (by decide) hbytes (by decide)
  exact ⟨by decide, h.1, h.2.2.2⟩

/-! ## C7: PEM chain splitting -/

lemma tails_weaken {t rest : List Char} (c : Char) (ht : t ∈ rest.tails) :
    t ∈ (c :: rest).tails := by
  simp only [List.mem_tails] at ht ⊢
  exact ht.trans (List.suffix_cons c rest)

/-- When the separator occurs nowhere in `s`, `split` returns `[s]`. -/
lemma splitSep_no_occ (sep : List Char) :
    ∀ s : List Char, (∀ t ∈ s.tails, t ≠ [] → ¬ sep.isPrefixOf t) → splitSep sep s = [s] := by
  intro s
  induction s with
  | nil => intro _; simp [splitSep]
  | cons c rest ih =>
      intro h
      have hpref : ¬ sep.isPrefixOf (c :: rest) :=
        h (c :: rest) (by simp [List.mem_tails]) (by simp)
      simp only [splitSep]
      rw [dif_neg (by intro hand; exact hpref hand.2)]
      rw [ih (fun t ht hne => h t (tails_weaken c ht) hne)]
      rfl

/-- Splitting `a ++ sep ++ r` at the first separator occurrence, when
`sep` does not occur inside `a` (including straddling the boundary). -/
lemma splitSep_segment (sep r : List Char) (hsep : sep ≠ []) :
    ∀ a : List Char,
      (∀ t ∈ a.tails, t ≠ [] → ¬ sep.isPrefixOf (t ++ (sep ++ r))) →
      splitSep sep (a ++ (sep ++ r)) = a :: splitSep sep r := by
  intro a
  induction a with
  | nil =>
      intro _
      obtain ⟨c0, sep', rfl⟩ : ∃ c0 sep', sep = c0 :: sep' := by
        cases sep with
        | nil => exact absurd rfl hsep
        | cons c0 s' => exact ⟨c0, s', rfl⟩
      show splitSep (c0 :: sep') (c0 :: (sep' ++ r)) = [] :: splitSep (c0 :: sep') r
      simp only [splitSep]
      have hc : (c0 :: sep') ≠ [] ∧ (c0 :: sep').isPrefixOf (c0 :: (sep' ++ r)) := by
        refine ⟨by simp, ?_⟩
        rw [show c0 :: (sep' ++ r) = (c0 :: sep') ++ r from rfl]
        exact List.isPrefixOf_iff_prefix.mpr (List.prefix_append _ _)
      rw [dif_pos hc]
      congr 1
      rw [show c0 :: (sep' ++ r) = (c0 :: sep') ++ r from rfl, List.drop_left]
  | cons c a' ih =>
      intro h
      have hpref : ¬ sep.isPrefixOf (c :: (a' ++ (sep ++ r))) :=
        h (c :: a') (by simp [List.mem_tails]) (by simp)
      show splitSep sep (c :: (a' ++ (sep ++ r))) = (c :: a') :: splitSep sep r
      simp only [splitSep]
      rw [dif_neg (by intro hand; exact hpref hand.2)]
      rw [ih (fun t ht hne => h t (tails_weaken c ht) hne)]
      rfl

lemma dropWhile_of_head_false {p : Char → Bool} : ∀ (l1 l2 : List Char), l1 ≠ [] →
    p (l1.headD ' ') = false → (l1 ++ l2).dropWhile p = l1 ++ l2
  | [], _, h, _ => absurd rfl h
  | x :: rest, l2, _, hh => by
      show ((x :: (rest ++ l2)).dropWhile p) = _
      simp only [List.headD] at hh
      rw [List.dropWhile_cons, if_neg (by simp [hh])]
      rfl

/-- `str.strip()` on the joined chain `'\n' + a2 + marker + '\n'`: the
leading and trailing newlines go, the block body and its end marker
stay. -/
lemma pyStrip_chain (a2 : List Char) (hne : a2 ≠ []) (hh : isPySpace (a2.headD ' ') = false) :
    pyStripChars ('\n' :: ((a2 ++ endCertMarker) ++ ['\n'])) = a2 ++ endCertMarker := by
  obtain ⟨c, a2', rfl⟩ : ∃ c a2', a2 = c :: a2' := by
    cases a2 with
    | nil => exact absurd rfl hne
    | cons c t => exact ⟨c, t, rfl⟩
  simp only [List.headD] at hh
  unfold pyStripChars
  have hnl : isPySpace '\n' = true := rfl
  have h1 : ('\n' :: (((c :: a2') ++ endCertMarker) ++ ['\n'])).dropWhile isPySpace
      = ((c :: a2') ++ endCertMarker) ++ ['\n'] := by
    rw [List.dropWhile_cons, if_pos (by simp [hnl])]
    show (c :: ((a2' ++ endCertMarker) ++ ['\n'])).dropWhile isPySpace = _
    rw [List.dropWhile_cons, if_neg (by simp [hh])]
    rfl
  rw [h1]
  have h2 : (((c :: a2') ++ endCertMarker) ++ ['\n']).reverse.dropWhile isPySpace
      = endCertMarker.reverse ++ (c :: a2').reverse := by
    rw [List.reverse_append, List.reverse_append]
    show ('\n' :: (endCertMarker.reverse ++ (c :: a2').reverse)).dropWhile isPySpace = _
    rw [List.dropWhile_cons, if_pos (by simp [hnl])]
    exact dropWhile_of_head_false _ _ (by decide) (by decide)
  rw [h2, List.reverse_append, List.reverse_reverse, List.reverse_reverse]

/-- `C7` — Lines 289-293 split the downloaded PEM stream as the spec
describes.  `a1`/`a2` are the block contents up to (exclusive) the end
marker; the hypotheses say the marker occurs only where the blocks end
(`tails`-style non-occurrence, including straddling occurrences) and that
the second block does not begin with whitespace.  Conclusions: for a
two-block input the leaf is the first block (end marker and newline
included) and the chain is exactly the second block with the same
formatting; for a one-block input the chain is the empty string. -/
theorem c7_split_cert_chain (a1 a2 : List Char)
    (h1 : ∀ t ∈ a1.tails, t ≠ [] →
      ¬ endCertMarker.isPrefixOf (t ++ (endCertMarker ++ ('\n' :: (a2 ++ (endCertMarker ++ ['\n']))))))
    (h2 : ∀ t ∈ ('\n' :: a2).tails, t ≠ [] →
      ¬ endCertMarker.isPrefixOf (t ++ (endCertMarker ++ ['\n'])))
    (h3 : ∀ t ∈ a1.tails, t ≠ [] → ¬ endCertMarker.isPrefixOf (t ++ (endCertMarker ++ ['\n'])))
    (hne : a2 ≠ []) (hh : isPySpace (a2.headD ' ') = false) :
    split_cert_chain (String.mk (a1 ++ (endCertMarker ++ ('\n' :: (a2 ++ (endCertMarker ++ ['\n']))))))
      = (String.mk (a1 ++ (endCertMarker ++ ['\n'])), String.mk (a2 ++ (endCertMarker ++ ['\n'])))
    ∧ split_cert_chain (String.mk (a1 ++ (endCertMarker ++ ['\n'])))
      = (String.mk (a1 ++ (endCertMarker ++ ['\n'])), "") := by
  have hsepne : endCertMarker ≠ [] := by decide
  constructor
  · -- two concatenated blocks
    have hsplit : splitSep endCertMarker
        (a1 ++ (endCertMarker ++ ('\n' :: (a2 ++ (endCertMarker ++ ['\n'])))))
        = a1 :: ('\n' :: a2) :: splitSep endCertMarker ['\n'] := by
      rw [splitSep_segment endCertMarker _ hsepne a1 h1]
      congr 1
      rw [show '\n' :: (a2 ++ (endCertMarker ++ ['\n'])) = ('\n' :: a2) ++ (endCertMarker ++ ['\n'])
        from rfl]
      exact splitSep_segment endCertMarker _ hsepne ('\n' :: a2) h2
    have htail : splitSep endCertMarker ['\n'] = [['\n']] :=
      splitSep_no_occ endCertMarker ['\n'] (by decide)
    unfold split_cert_chain
    rw [show (String.mk (a1 ++ (endCertMarker ++ ('\n' :: (a2 ++ (endCertMarker ++ ['\n'])))))).data
      = a1 ++ (endCertMarker ++ ('\n' :: (a2 ++ (endCertMarker ++ ['\n'])))) from rfl]
    rw [hsplit, htail]
    have hjoin : joinSep endCertMarker [('\n' :: a2), ['\n']]
        = '\n' :: ((a2 ++ endCertMarker) ++ ['\n']) := by
      show (('\n' :: a2) ++ endCertMarker) ++ joinSep endCertMarker [['\n']]
        = '\n' :: ((a2 ++ endCertMarker) ++ ['\n'])
      rfl
    simp only [List.headD_cons, List.drop_succ_cons, List.drop_zero, hjoin]
    rw [pyStrip_chain a2 hne hh]
    have hchain_ne : a2 ++ endCertMarker ≠ [] := by
      intro hEq
      exact hsepne (List.append_eq_nil.mp hEq).2
    rw [if_neg hchain_ne]
    simp [List.append_assoc]
  · -- a single block
    have hsplit : splitSep endCertMarker (a1 ++ (endCertMarker ++ ['\n']))
        = a1 :: splitSep endCertMarker ['\n'] :=
      splitSep_segment endCertMarker _ hsepne a1 h3
    have htail : splitSep endCertMarker ['\n'] = [['\n']] :=
      splitSep_no_occ endCertMarker ['\n'] (by decide)
    unfold split_cert_chain
    rw [show (String.mk (a1 ++ (endCertMarker ++ ['\n']))).data
      = a1 ++ (endCertMarker ++ ['\n']) from rfl]
    rw [hsplit, htail]
    simp only [List.headD_cons, List.drop_succ_cons, List.drop_zero]
    have hjoin : joinSep endCertMarker [['\n']] = ['\n'] := rfl
    rw [hjoin]
    have hstrip : pyStripChars ['\n'] = [] := rfl
    rw [hstrip]
    rw [if_pos rfl]
    simp [List.append_assoc]

/-- Witness for `c7_split_cert_chain` on two concrete PEM blocks. -/
theorem c7_split_cert_chain_witness :
    split_cert_chain (String.mk ("-----BEGIN CERTIFICATE-----\nAAA\n".data
        ++ (endCertMarker ++ ('\n' :: ("-----BEGIN CERTIFICATE-----\nBBB\n".data
          ++ (endCertMarker ++ ['\n']))))))
      = (String.mk ("-----BEGIN CERTIFICATE-----\nAAA\n".data ++ (endCertMarker ++ ['\n'])),
         String.mk ("-----BEGIN CERTIFICATE-----\nBBB\n".data ++ (endCertMarker ++ ['\n']))) :=
  (c7_split_cert_chain "-----BEGIN CERTIFICATE-----\nAAA\n".data
    "-----BEGIN CERTIFICATE-----\nBBB\n".data
    (by decide) (by decide) (by decide) (by decide) (by decide)).1

/-! ## Lemmas about the waiting loops -/

lemma pollLoop_polls_le (step : Resp → PollStep) (rs : Nat → Resp) (interval : Nat) :
    ∀ (fuel i slept : Nat) (nonce : Option String),
      (pollLoop step rs interval fuel i slept nonce).polls ≤ i + fuel := by
  intro fuel
  induction fuel with
  | zero => intro i slept nonce; simp [pollLoop, PollOut.polls]
  | succ f ih =>
      intro i slept nonce
      simp only [pollLoop]
      cases hstep : step (rs i) with
      | raise e => simp [PollOut.polls]; try omega
      | valid j => simp [PollOut.polls]; try omega
      | invalid j => simp [PollOut.polls]; try omega
      | cont =>
          have h := ih (i + 1) (slept + interval)
            (match rs i with | .ok _ _ rn => rn | .err _ _ _ => nonce)
          simp only []
          calc (pollLoop step rs interval f (i + 1) (slept + interval)
                (match rs i with | .ok _ _ rn => rn | .err _ _ _ => nonce)).polls
              ≤ (i + 1) + f := h
            _ = i + (f + 1) := by omega

lemma pollLoop_timeout_polls (step : Resp → PollStep) (rs : Nat → Resp) (interval : Nat) :
    ∀ (fuel i slept : Nat) (nonce : Option String) (p s : Nat) (nc : Option String),
      pollLoop step rs interval fuel i slept nonce = .timeout p s nc → p = i + fuel := by
  intro fuel
  induction fuel with
  | zero =>
      intro i slept nonce p s nc h
      simp only [pollLoop] at h
      injection h with h1 h2 h3
      omega
  | succ f ih =>
      intro i slept nonce p s nc h
      simp only [pollLoop] at h
      cases hstep : step (rs i) with
      | raise e => rw [hstep] at h; simp at h
      | valid j => rw [hstep] at h; simp at h
      | invalid j => rw [hstep] at h; simp at h
      | cont =>
          rw [hstep] at h
          have := ih (i + 1) (slept + interval) _ p s nc h
          omega

lemma pollLoop_timeout_of_cont (step : Resp → PollStep) (rs : Nat → Resp) (interval : Nat) :
    ∀ (fuel i slept : Nat) (nonce : Option String),
      (∀ j, i ≤ j → j < i + fuel → step (rs j) = .cont) →
      ∃ nc, pollLoop step rs interval fuel i slept nonce
        = .timeout (i + fuel) (slept + interval * fuel) nc := by
  intro fuel
  induction fuel with
  | zero =>
      intro i slept nonce _
      exact ⟨nonce, by simp [pollLoop]⟩
  | succ f ih =>
      intro i slept nonce hc
      have h0 : step (rs i) = .cont := hc i le_rfl (by omega)
      obtain ⟨nc, hnc⟩ := ih (i + 1) (slept + interval)
        (match rs i with | .ok _ _ rn => rn | .err _ _ _ => nonce)
        (fun j hj1 hj2 => hc j (by omega) (by omega))
      have e1 : (i + 1) + f = i + (f + 1) := by omega
      have e2 : (slept + interval) + interval * f = slept + interval * (f + 1) := by ring
      rw [e1, e2] at hnc
      exact ⟨nc, by simp only [pollLoop, h0]; exact hnc⟩

lemma pollLoop_invalid_at (step : Resp → PollStep) (rs : Nat → Resp) (interval : Nat) :
    ∀ (k fuel i slept : Nat) (nonce : Option String) (a : JV),
      (∀ j, i ≤ j → j < i + k → step (rs j) = .cont) →
      step (rs (i + k)) = .invalid a → k < fuel →
      ∃ nc, pollLoop step rs interval fuel i slept nonce
        = .invalid (i + k + 1) (slept + interval * k) nc a := by
  intro k
  induction k with
  | zero =>
      intro fuel i slept nonce a _ hstep hlt
      cases fuel with
      | zero => omega
      | succ f =>
          have h0 : step (rs i) = .invalid a := by simpa using hstep
          refine ⟨(match rs i with | .ok _ _ rn => rn | .err _ _ _ => nonce), ?_⟩
          simp [pollLoop, h0]
  | succ k' ih =>
      intro fuel i slept nonce a hc hstep hlt
      cases fuel with
      | zero => omega
      | succ f =>
          have h0 : step (rs i) = .cont := hc i le_rfl (by omega)
          obtain ⟨nc, hnc⟩ := ih f (i + 1) (slept + interval)
            (match rs i with | .ok _ _ rn => rn | .err _ _ _ => nonce) a
            (fun j hj1 hj2 => hc j (by omega) (by omega))
            (by rw [show (i + 1) + k' = i + (k' + 1) from by omega]; exact hstep)
            (by omega)
          have e1 : (i + 1) + k' + 1 = i + (k' + 1) + 1 := by omega
          have e2 : (slept + interval) + interval * k' = slept + interval * (k' + 1) := by ring
          rw [e1, e2] at hnc
          exact ⟨nc, by simp only [pollLoop, h0]; exact hnc⟩

lemma dnsWaitLoop_none_of_never (inSync : Nat → Bool) (h : ∀ j, inSync j = false) :
    ∀ (fuel i slept : Nat), dnsWaitLoop inSync fuel i slept = none := by
  intro fuel
  induction fuel with
  | zero => intro i slept; rfl
  | succ f ih =>
      intro i slept
      simp only [dnsWaitLoop, h i]
      exact ih (i + 1) (slept + 5)

lemma dnsWaitLoop_isSome_exists (inSync : Nat → Bool) :
    ∀ (fuel i slept : Nat), (dnsWaitLoop inSync fuel i slept).isSome → ∃ j, inSync j = true := by
  intro fuel
  induction fuel with
  | zero => intro i slept h; simp [dnsWaitLoop] at h
  | succ f ih =>
      intro i slept h
      simp only [dnsWaitLoop] at h
      by_cases hi : inSync i = true
      · exact ⟨i, hi⟩
      · rw [if_neg (by simp [hi])] at h
        exact ih (i + 1) (slept + 5) h

lemma dnsWaitLoop_isSome_of (inSync : Nat → Bool) (n : Nat) (h : inSync n = true) :
    ∀ (fuel i slept : Nat), i ≤ n → n < i + fuel → (dnsWaitLoop inSync fuel i slept).isSome := by
  intro fuel
  induction fuel with
  | zero => intro i slept h1 h2; omega
  | succ f ih =>
      intro i slept h1 h2
      simp only [dnsWaitLoop]
      by_cases hi : inSync i = true
      · rw [if_pos hi]; rfl
      · rw [if_neg (by simp [hi])]
        have hne : i ≠ n := fun hEq => hi (hEq ▸ h)
        exact ih (i + 1) (slept + 5) (by omega) (by omega)

/-! ## Trace analysis of the finishing phase -/

lemma acme_request_transport_ok_inv (r : Resp) (nonce : Option String)
    (b : String) (hs : List (String × String)) (rn : Option String)
    (h : acme_request_transport r nonce = .ok (b, hs, rn)) : r = .ok b hs rn := by
  cases r with
  | ok b2 h2 r2 =>
      simp only [acme_request_transport] at h
      injection h with h1
      obtain ⟨ha, hb, hc⟩ : b2 = b ∧ h2 = hs ∧ r2 = rn := by
        have := congrArg Prod.fst h1
        have h2nd := congrArg Prod.snd h1
        exact ⟨this, congrArg Prod.fst h2nd, congrArg Prod.snd h2nd⟩
      rw [ha, hb, hc]
  | err c2 b2 r2 => simp [acme_request_transport] at h

/-- The per-branch conditions of the single-write property, discharged
uniformly for every error outcome with an empty write list. -/
lemma trace_conds_error (e : CertErr) (tr : Trace) (C : JV → Prop) (hp : tr.puts = []) :
    tr.puts.length ≤ 1
    ∧ ((∃ v, (Except.error e : Except CertErr JV) = .ok v) ↔ tr.puts.length = 1)
    ∧ (∀ e2, (Except.error e : Except CertErr JV) = .error e2 → tr.puts = [])
    ∧ (∀ b, tr.puts = [b] → C b) := by
  refine ⟨by simp [hp], ⟨?_, ?_⟩, fun _ _ => hp, ?_⟩
  · rintro ⟨v, hv⟩
    exact absurd hv (by simp)
  · intro hlen
    rw [hp] at hlen
    simp at hlen
  · intro b hb
    rw [hp] at hb
    simp at hb

/-- What `finishPhase` writes: at most one secret value, exactly one on
success, none on failure, and the single written value is the bundle
assembled from the downloaded PEM. -/
lemma finishPhase_trace (P : Prims) (env : Env) (ctx : PrepCtx) (dp ap : Nat)
    (nonce : Option String) (out : Except CertErr JV) (tr : Trace)
    (h : finishPhase P env ctx dp ap nonce = (out, tr)) :
    tr.puts.length ≤ 1
    ∧ ((∃ v, out = .ok v) ↔ tr.puts.length = 1)
    ∧ (∀ e, out = .error e → tr.puts = [])
    ∧ (∀ b, tr.puts = [b] → ∃ pem hs rn expires ak,
        env.certResp = .ok pem hs rn
        ∧ P.notAfter (split_cert_chain pem).1 = some expires
        ∧ b = .obj [("certificate", .str (split_cert_chain pem).1),
                    ("chain", .str (split_cert_chain pem).2),
                    ("private_key", .str P.certKeyPem),
                    ("domain", .str P.domain),
                    ("expires", .str expires),
                    ("account_key", .str (P.accountKeyPem ak))]) := by
  simp only [finishPhase] at h
  cases h1 : jIndexUrl ctx.order "finalize" with
  | error e1 =>
      simp only [h1] at h
      cases h
      exact trace_conds_error _ _ _ rfl
  | ok u1 =>
      simp only [h1] at h
      cases h2 : acme_request_transport env.finalizeResp nonce with
      | error e2 =>
          simp only [h2] at h
          cases h
          exact trace_conds_error _ _ _ rfl
      | ok t2 =>
          obtain ⟨b2, hs2, rn2⟩ := t2
          simp only [h2] at h
          cases h3 : ctx.orderUrl with
          | none =>
              simp only [h3] at h
              cases h
              exact trace_conds_error _ _ _ rfl
          | some u3 =>
              simp only [h3] at h
              cases h4 : pollLoop (orderStep P.jloads) env.orderPollResps 2 30 0 0 rn2 with
              | raised p s nc e4 =>
                  simp only [h4] at h
                  cases h
                  exact trace_conds_error _ _ _ rfl
              | invalid p s nc o4 =>
                  simp only [h4] at h
                  cases h
                  exact trace_conds_error _ _ _ rfl
              | timeout p s nc =>
                  simp only [h4] at h
                  cases h
                  exact trace_conds_error _ _ _ rfl
              | ok p s nc finalOrder =>
                  simp only [h4] at h
                  cases h5 : jIndexUrl finalOrder "certificate" with
                  | error e5 =>
                      simp only [h5] at h
                      cases h
                      exact trace_conds_error _ _ _ rfl
                  | ok u5 =>
                      simp only [h5] at h
                      cases h6 : acme_request_transport env.certResp nc with
                      | error e6 =>
                          simp only [h6] at h
                          cases h
                          exact trace_conds_error _ _ _ rfl
                      | ok t6 =>
                          obtain ⟨pem, hs6, rn6⟩ := t6
                          simp only [h6] at h
                          cases h7 : P.notAfter (split_cert_chain pem).1 with
                          | none =>
                              simp only [h7] at h
                              cases h
                              exact trace_conds_error _ _ _ rfl
                          | some expires =>
                              simp only [h7] at h
                              cases h
                              refine ⟨by simp, ⟨fun _ => rfl, fun _ => ⟨_, rfl⟩⟩, ?_, ?_⟩
                              · intro e he
                                exact absurd he (by simp)
                              · intro b hb
                                have hb2 : b = JV.obj
                                    [("certificate", .str (split_cert_chain pem).1),
                                     ("chain", .str (split_cert_chain pem).2),
                                     ("private_key", .str P.certKeyPem),
                                     ("domain", .str P.domain),
                                     ("expires", .str expires),
                                     ("account_key", .str (P.accountKeyPem ctx.accountKey))] := by
                                  have := congrArg List.head? hb
                                  simpa using this.symm
                                exact ⟨pem, hs6, rn6, expires, ctx.accountKey,
                                  acme_request_transport_ok_inv _ _ _ _ _ h6, h7, hb2⟩

/-! ## C2, C4, C5: the waiting loops and the single secret write -/

lemma prepare_stuck : prepareBeforeDns tblPrims envStuckDns = .ok ctxStuck := rfl

lemma prepare_timeout_env : prepareBeforeDns tblPrims envAuthTimeout = .ok ctxStuck := rfl

/-- `C2` (counterexample) — An issuance attempt in which every step up to
the DNS wait succeeds but Route53 never reports `INSYNC` polls forever:
no amount of fuel makes `generate_certificate` return.  The DNS
propagation wait is an unbounded `while True` (lines 237-241), so not
every waiting phase has an attempt cap, contradicting the claim. -/
theorem c2_counterexample :
    ¬ ∃ fuel, (generate_certificate tblPrims envStuckDns fuel).isSome := by
  rintro ⟨fuel, hf⟩
  have hd : dnsWaitLoop envStuckDns.dnsInSync fuel 0 0 = none :=
    dnsWaitLoop_none_of_never _ (fun j => rfl) fuel 0 0
  have hnone : preparePhase tblPrims envStuckDns fuel = none := by
    simp only [preparePhase, prepare_stuck, hd]
  simp only [generate_certificate, hnone] at hf
  simp at hf

/-- `C2` (amended) — The challenge-validation and order-finalization waits
are bounded polling (2-second interval, 30-attempt cap: never more than 30
polls); the DNS-propagation wait has a fixed 5-second interval but no
attempt cap: it returns exactly when the provider eventually reports
`INSYNC`, so its termination depends on the external service. -/
theorem c2_wait_bounds (jl : String → Option JV) (rs rs2 : Nat → Resp) (nonce : Option String)
    (st : Nat → Bool) (fuel n : Nat) (h : st n = true) (hn : n < fuel) :
    (pollLoop (authStep jl) rs 2 30 0 0 nonce).polls ≤ 30
    ∧ (pollLoop (orderStep jl) rs2 2 30 0 0 nonce).polls ≤ 30
    ∧ (∀ (st2 : Nat → Bool) (f2 : Nat), (dnsWaitLoop st2 f2 0 0).isSome → ∃ m, st2 m = true)
    ∧ (dnsWaitLoop st fuel 0 0).isSome := by
  refine ⟨by simpa using pollLoop_polls_le (authStep jl) rs 2 30 0 0 nonce,
          by simpa using pollLoop_polls_le (orderStep jl) rs2 2 30 0 0 nonce,
          fun st2 f2 hs => dnsWaitLoop_isSome_exists st2 f2 0 0 hs,
          dnsWaitLoop_isSome_of st n h fuel 0 0 (by omega) (by omega)⟩

/-- Witness for `c2_wait_bounds`. -/
theorem c2_wait_bounds_witness :
    (dnsWaitLoop (fun _ => true) 1 0 0).isSome
    ∧ (pollLoop (authStep (fun _ => none)) (fun _ => Resp.err 0 "" none) 2 30 0 0 none).polls
        ≤ 30 :=
  ⟨(c2_wait_bounds (fun _ => none) (fun _ => Resp.err 0 "" none) (fun _ => Resp.err 0 "" none)
      none (fun _ => true) 1 0 rfl (by omega)).2.2.2,
   (c2_wait_bounds (fun _ => none) (fun _ => Resp.err 0 "" none) (fun _ => Resp.err 0 "" none)
      none (fun _ => true) 1 0 rfl (by omega)).1⟩

/-- `C4` — The authorization poll loop (lines 250-263): (1) it never
issues more than 30 polls; (2) if the first `k` polls are pending and the
`k`-th response has status `invalid` (`k < 30`), the loop stops right
there with the `Challenge failed` exception after exactly `k+1` polls and
`2k` seconds of sleeping — no further polls; (3) in a run that reaches
the poll phase and times out, `generate_certificate` raises the challenge
validation timeout after exactly 30 polls with no finalize request ever
issued (`finalizes = 0` in the trace). -/
theorem c4_authorization_poll (jl : String → Option JV) (f : Nat → Resp) (k : Nat) (a : JV)
    (nonce : Option String) (hk : k < 30)
    (hpend : ∀ j, j < k → authStep jl (f j) = .cont)
    (hinv : authStep jl (f k) = .invalid a)
    (P : Prims) (env : Env) (fuel : Nat) (ctx : PrepCtx) (dp ds s2 : Nat) (nc2 : Option String)
    (hprep : preparePhase P env fuel = some (.ok ctx, dp, ds))
    (htimeout : pollLoop (authStep P.jloads) env.authPollResps 2 30 0 0 ctx.nonce
      = .timeout 30 s2 nc2) :
    (∀ (g : Nat → Resp) (nc : Option String), (pollLoop (authStep jl) g 2 30 0 0 nc).polls ≤ 30)
    ∧ (∃ nc, pollLoop (authStep jl) f 2 30 0 0 nonce = .invalid (k + 1) (2 * k) nc a)
    ∧ generate_certificate P env fuel
        = some (.error .challengeTimeout,
            { puts := [], finalizes := 0, authPolls := 30, orderPolls := 0, dnsPolls := dp }) := by
  refine ⟨?_, ?_, ?_⟩
  · intro g nc
    simpa using pollLoop_polls_le (authStep jl) g 2 30 0 0 nc
  · obtain ⟨nc, hnc⟩ := pollLoop_invalid_at (authStep jl) f 2 k 30 0 0 nonce a
      (fun j hj1 hj2 => hpend j (by omega)) (by simpa using hinv) hk
    exact ⟨nc, by simpa using hnc⟩
  · simp only [generate_certificate, hprep, htimeout]

/-- Witness for `c4_authorization_poll`: the concrete environment whose
polls all report `pending`, plus a poll function whose second response is
`invalid`. -/
theorem c4_authorization_poll_witness :
    preparePhase tblPrims envAuthTimeout 1 = some (.ok ctxTimeout, 1, 0)
    ∧ generate_certificate tblPrims envAuthTimeout 1
        = some (.error .challengeTimeout,
            { puts := [], finalizes := 0, authPolls := 30, orderPolls := 0, dnsPolls := 1 }) :=
  ⟨rfl,
   (c4_authorization_poll tblJloads fInv 1 (.obj [("status", .str "invalid")]) none (by omega)
      (fun j hj => by
        have hj0 : j = 0 := by omega
        subst hj0
        rfl)
      rfl
      tblPrims envAuthTimeout 1 ctxTimeout 1 0 60 (some "n5") rfl rfl).2.2⟩

/-- `C5` — The secret store is written at most once per attempt: exactly
once when the attempt succeeds, never when it fails at any step, and the
single written value is the complete bundle assembled from the downloaded
PEM (leaf, chain, certificate key, domain, expiry parsed from the leaf,
account key) — so a write can only happen after the certificate download
and full bundle assembly succeeded. -/
theorem c5_single_put (P : Prims) (env : Env) (fuel : Nat) (out : Except CertErr JV) (tr : Trace)
    (hrun : generate_certificate P env fuel = some (out, tr)) :
    tr.puts.length ≤ 1
    ∧ ((∃ v, out = .ok v) ↔ tr.puts.length = 1)
    ∧ (∀ e, out = .error e → tr.puts = [])
    ∧ (∀ b, tr.puts = [b] → ∃ pem hs rn expires ak,
        env.certResp = .ok pem hs rn
        ∧ P.notAfter (split_cert_chain pem).1 = some expires
        ∧ b = .obj [("certificate", .str (split_cert_chain pem).1),
                    ("chain", .str (split_cert_chain pem).2),
                    ("private_key", .str P.certKeyPem),
                    ("domain", .str P.domain),
                    ("expires", .str expires),
                    ("account_key", .str (P.accountKeyPem ak))]) := by
  cases hp : preparePhase P env fuel with
  | none =>
      simp only [generate_certificate, hp] at hrun
      exact absurd hrun (by simp)
  | some pr =>
      obtain ⟨pres, dp, ds⟩ := pr
      cases pres with
      | error e =>
          simp only [generate_certificate, hp] at hrun
          injection hrun with h2
          cases h2
          exact trace_conds_error _ _ _ rfl
      | ok ctx =>
          simp only [generate_certificate, hp] at hrun
          cases hl : pollLoop (authStep P.jloads) env.authPollResps 2 30 0 0 ctx.nonce with
          | raised p s nc e =>
              simp only [hl] at hrun
              injection hrun with h2
              cases h2
              exact trace_conds_error _ _ _ rfl
          | invalid p s nc body =>
              simp only [hl] at hrun
              injection hrun with h2
              cases h2
              exact trace_conds_error _ _ _ rfl
          | timeout p s nc =>
              simp only [hl] at hrun
              injection hrun with h2
              cases h2
              exact trace_conds_error _ _ _ rfl
          | ok p s nc body =>
              simp only [hl] at hrun
              injection hrun with h2
              exact finishPhase_trace P env ctx dp p nc out tr h2

/-- Witness for `c5_single_put`: an attempt failing at the directory
fetch writes nothing. -/
theorem c5_single_put_witness :
    generate_certificate tblPrims envEarlyFail 7
      = some (.error (.httpError 500 "boom"),
          { puts := [], finalizes := 0, authPolls := 0, orderPolls := 0, dnsPolls := 0 })
    ∧ (({ puts := [], finalizes := 0, authPolls := 0, orderPolls := 0,
          dnsPolls := 0 } : Trace).puts.length ≤ 1
        ∧ (∀ e, (Except.error (CertErr.httpError 500 "boom") : Except CertErr JV) = .error e →
            ({ puts := [], finalizes := 0, authPolls := 0, orderPolls := 0,
               dnsPolls := 0 } : Trace).puts = [])) :=
  ⟨rfl,
   ⟨(c5_single_put tblPrims envEarlyFail 7 _ _ rfl).1,
    (c5_single_put tblPrims envEarlyFail 7 _ _ rfl).2.2.1⟩⟩
